import Mathlib

set_option autoImplicit false

/-!
Verification of the percona-parser on-disk format engine.

Pages are modelled as functions from byte offset to byte value; all
multi-byte integers are big-endian, mirroring the `mach_*` codec the
source uses.  External libraries (zlib, MySQL's `page_zip_decompress_low`)
are modelled as oracles passed in as parameters.
-/

namespace PerconaParser

/-- A page buffer: byte offset to byte value.  Writes normalise to `% 256`. -/
def Page : Type := Nat → Nat

/-- Store one byte (`buf[off] = v`, truncated to a byte). -/
def writeByte (p : Page) (off v : Nat) : Page :=
  fun i => if i = off then v % 256 else p i

/-- Read one byte (`mach_read_from_1`). -/
def mach_read_from_1 (p : Page) (off : Nat) : Nat := p off % 256

/-- `mach_write_to_1` from the InnoDB byte codec. -/
def mach_write_to_1 (p : Page) (off v : Nat) : Page := writeByte p off v

/-- `mach_write_to_2`: big-endian 16-bit store. -/
def mach_write_to_2 (p : Page) (off v : Nat) : Page :=
  writeByte (writeByte p off (v >>> 8)) (off + 1) v

/-- `mach_read_from_2`: big-endian 16-bit load. -/
def mach_read_from_2 (p : Page) (off : Nat) : Nat :=
  (p off % 256) * 256 + p (off + 1) % 256

/-- `mach_write_to_4`: big-endian 32-bit store. -/
def mach_write_to_4 (p : Page) (off v : Nat) : Page :=
  writeByte (writeByte (writeByte (writeByte p off (v >>> 24))
    (off + 1) (v >>> 16)) (off + 2) (v >>> 8)) (off + 3) v

/-- `mach_read_from_4`: big-endian 32-bit load. -/
def mach_read_from_4 (p : Page) (off : Nat) : Nat :=
  (p off % 256) * 16777216 + (p (off + 1) % 256) * 65536 +
    (p (off + 2) % 256) * 256 + p (off + 3) % 256

/-- `mach_write_to_3`: big-endian 24-bit store. -/
def mach_write_to_3 (p : Page) (off v : Nat) : Page :=
  writeByte (writeByte (writeByte p off (v >>> 16)) (off + 1) (v >>> 8)) (off + 2) v

/-- `mach_write_to_6`: the high 16 bits then the low 32, as in the engine. -/
def mach_write_to_6 (p : Page) (off v : Nat) : Page :=
  mach_write_to_4 (mach_write_to_2 p off (v >>> 32)) (off + 2) v

/-- `mach_write_to_7`: the high 24 bits then the low 32, as in the engine. -/
def mach_write_to_7 (p : Page) (off v : Nat) : Page :=
  mach_write_to_4 (mach_write_to_3 p off (v >>> 32)) (off + 3) v

/-- `mach_write_to_8`: the high 32 bits then the low 32, as in the engine. -/
def mach_write_to_8 (p : Page) (off v : Nat) : Page :=
  mach_write_to_4 (mach_write_to_4 p off (v >>> 32)) (off + 4) v

/-- `mach_read_from_8`: big-endian 64-bit load. -/
def mach_read_from_8 (p : Page) (off : Nat) : Nat :=
  mach_read_from_4 p off * 4294967296 + mach_read_from_4 p (off + 4)

/-- The bytes `p[off .. off+len)` as a list. -/
def pageBytes (p : Page) (off len : Nat) : List Nat :=
  (List.range len).map (fun j => p (off + j) % 256)

/- ## InnoDB file-page constants (fil0types.h, MySQL 8.0) -/

def FIL_PAGE_SPACE_OR_CHKSUM : Nat := 0
def FIL_PAGE_OFFSET : Nat := 4
def FIL_PAGE_PREV : Nat := 8
def FIL_PAGE_NEXT : Nat := 12
def FIL_PAGE_LSN : Nat := 16
def FIL_PAGE_TYPE : Nat := 24
def FIL_PAGE_FILE_FLUSH_LSN : Nat := 26
def FIL_PAGE_ARCH_LOG_NO_OR_SPACE_ID : Nat := 34
def FIL_PAGE_DATA : Nat := 38
def FIL_PAGE_END_LSN_OLD_CHKSUM : Nat := 8
def FIL_NULL : Nat := 4294967295

def FIL_PAGE_INDEX : Nat := 17855
def FIL_PAGE_RTREE : Nat := 17854
def FIL_PAGE_SDI : Nat := 17853
def FIL_PAGE_TYPE_BLOB : Nat := 10
def FIL_PAGE_TYPE_ZBLOB : Nat := 11
def FIL_PAGE_TYPE_ZBLOB2 : Nat := 12
def FIL_PAGE_SDI_BLOB : Nat := 18
def FIL_PAGE_SDI_ZBLOB : Nat := 19

def UNIV_PAGE_SIZE_ORIG : Nat := 16384

/- ## CRC-32C (`ut_crc32`, the engine's Castagnoli variant) -/

/-- One reflected CRC-32C bit step with polynomial 0x82F63B78. -/
def crc32cBitStep (c : Nat) : Nat :=
  if c % 2 = 1 then (c / 2) ^^^ 0x82F63B78 else c / 2

/-- Iterate a function n times. -/
def iterN (f : Nat → Nat) : Nat → Nat → Nat
  | 0, x => x
  | n + 1, x => iterN f n (f x)

/-- Fold one input byte into the CRC state. -/
def crc32cByteStep (c b : Nat) : Nat := iterN crc32cBitStep 8 (c ^^^ (b % 256))

/-- `ut_crc32`: CRC-32C over a byte list, seed and final xor 0xFFFFFFFF. -/
def ut_crc32 (bs : List Nat) : Nat :=
  (bs.foldl crc32cByteStep 0xFFFFFFFF) ^^^ 0xFFFFFFFF

/- ## decompress.cc: calc_page_crc32 / stamp_page_lsn_and_crc32 -/

/-- `calc_page_crc32` (decompress.cc): CRC of bytes
`[FIL_PAGE_OFFSET .. FIL_PAGE_FILE_FLUSH_LSN)` xor CRC of bytes
`[FIL_PAGE_DATA .. page_size - FIL_PAGE_END_LSN_OLD_CHKSUM)`. -/
def calc_page_crc32 (p : Page) (page_size : Nat) : Nat :=
  (ut_crc32 (pageBytes p FIL_PAGE_OFFSET (FIL_PAGE_FILE_FLUSH_LSN - FIL_PAGE_OFFSET))) ^^^
    (ut_crc32 (pageBytes p FIL_PAGE_DATA
      (page_size - FIL_PAGE_DATA - FIL_PAGE_END_LSN_OLD_CHKSUM)))

/-- `stamp_page_lsn_and_crc32` (decompress.cc): write the LSN into header and
trailer, then write the freshly computed checksum into the header checksum
slot and over the first four trailer bytes. -/
def stamp_page_lsn_and_crc32 (p : Page) (page_size lsn : Nat) : Page :=
  let p1 := mach_write_to_8 p FIL_PAGE_LSN lsn
  let p2 := mach_write_to_8 p1 (page_size - FIL_PAGE_END_LSN_OLD_CHKSUM) lsn
  let checksum := calc_page_crc32 p2 page_size
  let p3 := mach_write_to_4 p2 FIL_PAGE_SPACE_OR_CHKSUM checksum
  mach_write_to_4 p3 (page_size - FIL_PAGE_END_LSN_OLD_CHKSUM) checksum

/- ## Pointwise lemmas about the byte writers -/

theorem writeByte_apply (p : Page) (off v i : Nat) :
    writeByte p off v i = if i = off then v % 256 else p i := rfl

theorem writeByte_ne (p : Page) (off v i : Nat) (h : i ≠ off) :
    writeByte p off v i = p i := by
  simp [writeByte, h]

theorem mach_write_to_4_outside (p : Page) (off v i : Nat)
    (h : i < off ∨ off + 4 ≤ i) : mach_write_to_4 p off v i = p i := by
  simp only [mach_write_to_4]
  rw [writeByte_ne, writeByte_ne, writeByte_ne, writeByte_ne] <;> omega

theorem mach_write_to_2_outside (p : Page) (off v i : Nat)
    (h : i < off ∨ off + 2 ≤ i) : mach_write_to_2 p off v i = p i := by
  simp only [mach_write_to_2]
  rw [writeByte_ne, writeByte_ne] <;> omega

theorem mach_write_to_3_outside (p : Page) (off v i : Nat)
    (h : i < off ∨ off + 3 ≤ i) : mach_write_to_3 p off v i = p i := by
  simp only [mach_write_to_3]
  rw [writeByte_ne, writeByte_ne, writeByte_ne] <;> omega

theorem mach_write_to_6_outside (p : Page) (off v i : Nat)
    (h : i < off ∨ off + 6 ≤ i) : mach_write_to_6 p off v i = p i := by
  simp only [mach_write_to_6]
  rw [mach_write_to_4_outside _ _ _ _ (by omega), mach_write_to_2_outside _ _ _ _ (by omega)]

theorem mach_write_to_7_outside (p : Page) (off v i : Nat)
    (h : i < off ∨ off + 7 ≤ i) : mach_write_to_7 p off v i = p i := by
  simp only [mach_write_to_7]
  rw [mach_write_to_4_outside _ _ _ _ (by omega), mach_write_to_3_outside _ _ _ _ (by omega)]

theorem mach_write_to_8_outside (p : Page) (off v i : Nat)
    (h : i < off ∨ off + 8 ≤ i) : mach_write_to_8 p off v i = p i := by
  simp only [mach_write_to_8]
  rw [mach_write_to_4_outside _ _ _ _ (by omega), mach_write_to_4_outside _ _ _ _ (by omega)]

theorem mach_read_from_4_write_same (p : Page) (off v : Nat) :
    mach_read_from_4 (mach_write_to_4 p off v) off = v % 4294967296 := by
  simp only [mach_read_from_4, mach_write_to_4, writeByte]
  have h0 : off ≠ off + 1 := by omega
  have h1 : off ≠ off + 2 := by omega
  have h2 : off ≠ off + 3 := by omega
  have h3 : off + 1 ≠ off + 2 := by omega
  have h4 : off + 1 ≠ off + 3 := by omega
  have h5 : off + 2 ≠ off + 3 := by omega
  simp only [if_pos rfl, if_neg h0, if_neg h1, if_neg h2, if_neg h3,
    if_neg h4, if_neg h5, if_neg (Ne.symm h0), if_neg (Ne.symm h1),
    if_neg (Ne.symm h2), if_neg (Ne.symm h3), if_neg (Ne.symm h4),
    if_neg (Ne.symm h5)]
  simp only [Nat.shiftRight_eq_div_pow]
  norm_num
  omega

theorem pageBytes_congr (p q : Page) (off len : Nat)
    (h : ∀ j, j < len → p (off + j) = q (off + j)) :
    pageBytes p off len = pageBytes q off len := by
  simp only [pageBytes]
  apply List.map_congr_left
  intro j hj
  rw [List.mem_range] at hj
  rw [h j hj]

theorem mach_read_from_4_congr (p q : Page) (off : Nat)
    (h : ∀ j, j < 4 → p (off + j) = q (off + j)) :
    mach_read_from_4 p off = mach_read_from_4 q off := by
  have h0 := h 0 (by omega)
  have h1 := h 1 (by omega)
  have h2 := h 2 (by omega)
  have h3 := h 3 (by omega)
  simp only [Nat.add_zero] at h0
  simp only [mach_read_from_4, h0, h1, h2, h3]

/- ## Range bound for the CRC state -/

theorem crc32cBitStep_lt (c : Nat) (h : c < 4294967296) :
    crc32cBitStep c < 4294967296 := by
  unfold crc32cBitStep
  split
  · have h1 : c / 2 < 2 ^ 32 := by omega
    have h2 : (0x82F63B78 : Nat) < 2 ^ 32 := by norm_num
    have := Nat.xor_lt_two_pow h1 h2
    simpa using this
  · omega

theorem iterN_crc32cBitStep_lt (n c : Nat) (h : c < 4294967296) :
    iterN crc32cBitStep n c < 4294967296 := by
  induction n generalizing c with
  | zero => simpa [iterN] using h
  | succ k ih => exact ih _ (crc32cBitStep_lt c h)

theorem crc32cByteStep_lt (c b : Nat) (h : c < 4294967296) :
    crc32cByteStep c b < 4294967296 := by
  apply iterN_crc32cBitStep_lt
  have h1 : c < 2 ^ 32 := by omega
  have h2 : b % 256 < 2 ^ 32 := by
    have := Nat.mod_lt b (y := 256) (by norm_num)
    omega
  have := Nat.xor_lt_two_pow h1 h2
  simpa using this

theorem foldl_crc32cByteStep_lt (bs : List Nat) (c : Nat) (h : c < 4294967296) :
    bs.foldl crc32cByteStep c < 4294967296 := by
  induction bs generalizing c with
  | nil => simpa using h
  | cons b rest ih => exact ih _ (crc32cByteStep_lt c b h)

theorem ut_crc32_lt (bs : List Nat) : ut_crc32 bs < 4294967296 := by
  unfold ut_crc32
  have h1 : bs.foldl crc32cByteStep 0xFFFFFFFF < 2 ^ 32 := by
    have := foldl_crc32cByteStep_lt bs 0xFFFFFFFF (by norm_num)
    omega
  have h2 : (0xFFFFFFFF : Nat) < 2 ^ 32 := by norm_num
  have hx := Nat.xor_lt_two_pow h1 h2
  simpa using hx

theorem calc_page_crc32_lt (p : Page) (n : Nat) : calc_page_crc32 p n < 4294967296 := by
  unfold calc_page_crc32
  have h1 := ut_crc32_lt (pageBytes p FIL_PAGE_OFFSET (FIL_PAGE_FILE_FLUSH_LSN - FIL_PAGE_OFFSET))
  have h2 := ut_crc32_lt (pageBytes p FIL_PAGE_DATA (n - FIL_PAGE_DATA - FIL_PAGE_END_LSN_OLD_CHKSUM))
  have hx := Nat.xor_lt_two_pow (n := 32) (by simpa using h1) (by simpa using h2)
  simpa using hx

theorem xor_right_cancel_nat (a b c : Nat) (h : a ^^^ c = b ^^^ c) : a = b := by
  have h2 := congrArg (fun x => x ^^^ c) h
  simpa [Nat.xor_assoc] using h2

/- ## Stored-checksum lemma for stamp_page_lsn_and_crc32 -/

/-- After stamping, both checksum slots hold `calc_page_crc32` of the final
page.  The checksummed ranges do not cover the header checksum slot or the
trailer, so stamping the checksum does not disturb its own input. -/
theorem stamp_stored_checksums (p : Page) (n lsn : Nat) (h : 46 ≤ n) :
    mach_read_from_4 (stamp_page_lsn_and_crc32 p n lsn) FIL_PAGE_SPACE_OR_CHKSUM =
      calc_page_crc32 (stamp_page_lsn_and_crc32 p n lsn) n ∧
    mach_read_from_4 (stamp_page_lsn_and_crc32 p n lsn) (n - FIL_PAGE_END_LSN_OLD_CHKSUM) =
      calc_page_crc32 (stamp_page_lsn_and_crc32 p n lsn) n := by
  simp only [stamp_page_lsn_and_crc32]
  set p1 := mach_write_to_8 p FIL_PAGE_LSN lsn with hp1
  set p2 := mach_write_to_8 p1 (n - FIL_PAGE_END_LSN_OLD_CHKSUM) lsn with hp2
  set ck := calc_page_crc32 p2 n with hck
  set p3 := mach_write_to_4 p2 FIL_PAGE_SPACE_OR_CHKSUM ck with hp3
  set p4 := mach_write_to_4 p3 (n - FIL_PAGE_END_LSN_OLD_CHKSUM) ck with hp4
  have hcklt : ck < 4294967296 := calc_page_crc32_lt p2 n
  -- the final page agrees with p2 on both checksummed ranges
  have hsame : calc_page_crc32 p4 n = ck := by
    rw [hck]
    unfold calc_page_crc32
    have e1 : pageBytes p4 FIL_PAGE_OFFSET (FIL_PAGE_FILE_FLUSH_LSN - FIL_PAGE_OFFSET) =
        pageBytes p2 FIL_PAGE_OFFSET (FIL_PAGE_FILE_FLUSH_LSN - FIL_PAGE_OFFSET) := by
      apply pageBytes_congr
      intro j hj
      simp only [FIL_PAGE_OFFSET, FIL_PAGE_FILE_FLUSH_LSN] at hj ⊢
      rw [hp4, mach_write_to_4_outside _ _ _ _ (by simp only [FIL_PAGE_END_LSN_OLD_CHKSUM]; omega),
          hp3, mach_write_to_4_outside _ _ _ _ (by simp only [FIL_PAGE_SPACE_OR_CHKSUM]; omega)]
    have e2 : pageBytes p4 FIL_PAGE_DATA (n - FIL_PAGE_DATA - FIL_PAGE_END_LSN_OLD_CHKSUM) =
        pageBytes p2 FIL_PAGE_DATA (n - FIL_PAGE_DATA - FIL_PAGE_END_LSN_OLD_CHKSUM) := by
      apply pageBytes_congr
      intro j hj
      simp only [FIL_PAGE_DATA, FIL_PAGE_END_LSN_OLD_CHKSUM] at hj ⊢
      rw [hp4, mach_write_to_4_outside _ _ _ _ (by simp only [FIL_PAGE_END_LSN_OLD_CHKSUM]; omega),
          hp3, mach_write_to_4_outside _ _ _ _ (by simp only [FIL_PAGE_SPACE_OR_CHKSUM]; omega)]
    rw [e1, e2]
  constructor
  · have hr : mach_read_from_4 p4 FIL_PAGE_SPACE_OR_CHKSUM =
        mach_read_from_4 p3 FIL_PAGE_SPACE_OR_CHKSUM := by
      apply mach_read_from_4_congr
      intro j hj
      rw [hp4]
      apply mach_write_to_4_outside
      simp only [FIL_PAGE_SPACE_OR_CHKSUM, FIL_PAGE_END_LSN_OLD_CHKSUM]
      omega
    rw [hsame, hr, hp3, mach_read_from_4_write_same, Nat.mod_eq_of_lt hcklt]
  · rw [hsame, hp4, mach_read_from_4_write_same, Nat.mod_eq_of_lt hcklt]

/-- Concrete 16-KiB page used to separate the two checksum formulas: its only
nonzero byte sits at offset 30, inside `[26, 38)`. -/
def c1CexBase : Page := fun i => if i = 30 then 1 else 0

/-- Unfolding of `calc_page_crc32` with the byte ranges written out:
the first CRC covers bytes `[4..26)`, the second `[38..n-8)`. -/
theorem calc_page_crc32_ranges (p : Page) (n : Nat) :
    calc_page_crc32 p n =
      (ut_crc32 (pageBytes p 4 22)) ^^^ (ut_crc32 (pageBytes p 38 (n - 46))) := by
  unfold calc_page_crc32
  simp only [FIL_PAGE_OFFSET, FIL_PAGE_FILE_FLUSH_LSN, FIL_PAGE_DATA,
    FIL_PAGE_END_LSN_OLD_CHKSUM]
  rw [show n - 38 - 8 = n - 46 by omega]

/-- C1 (amended).  For every page the rebuild pipeline writes to its output
(every page emitted by rebuild_uncompressed_ibd, including synthesized
SDI-BLOB pages, all of which pass through stamp_page_lsn_and_crc32 at the
logical page size), the stored checksum equals `crc32(bytes[4..26))` XOR
`crc32(bytes[38..page_size-8))` of that page, and both the header checksum
field and the trailer checksum field carry this same value. -/
theorem C1_stamp_checksum_both_slots (p : Page) (n lsn : Nat) (h : 46 ≤ n) :
    mach_read_from_4 (stamp_page_lsn_and_crc32 p n lsn) FIL_PAGE_SPACE_OR_CHKSUM =
      (ut_crc32 (pageBytes (stamp_page_lsn_and_crc32 p n lsn) 4 22)) ^^^
        (ut_crc32 (pageBytes (stamp_page_lsn_and_crc32 p n lsn) 38 (n - 46))) ∧
    mach_read_from_4 (stamp_page_lsn_and_crc32 p n lsn) (n - 8) =
      (ut_crc32 (pageBytes (stamp_page_lsn_and_crc32 p n lsn) 4 22)) ^^^
        (ut_crc32 (pageBytes (stamp_page_lsn_and_crc32 p n lsn) 38 (n - 46))) := by
  have hs := stamp_stored_checksums p n lsn h
  rw [calc_page_crc32_ranges] at hs
  refine ⟨hs.1, ?_⟩
  have h2 := hs.2
  rw [show n - FIL_PAGE_END_LSN_OLD_CHKSUM = n - 8 by
    simp only [FIL_PAGE_END_LSN_OLD_CHKSUM]] at h2
  exact h2

/-- C1 witness: the theorem applied to the all-zeros 16-KiB page. -/
theorem C1_stamp_checksum_both_slots_witness :
    46 ≤ 16384 ∧
    (mach_read_from_4 (stamp_page_lsn_and_crc32 (fun _ => 0) 16384 0) FIL_PAGE_SPACE_OR_CHKSUM =
      (ut_crc32 (pageBytes (stamp_page_lsn_and_crc32 (fun _ => 0) 16384 0) 4 22)) ^^^
        (ut_crc32 (pageBytes (stamp_page_lsn_and_crc32 (fun _ => 0) 16384 0) 38 (16384 - 46))) ∧
    mach_read_from_4 (stamp_page_lsn_and_crc32 (fun _ => 0) 16384 0) (16384 - 8) =
      (ut_crc32 (pageBytes (stamp_page_lsn_and_crc32 (fun _ => 0) 16384 0) 4 22)) ^^^
        (ut_crc32 (pageBytes (stamp_page_lsn_and_crc32 (fun _ => 0) 16384 0) 38 (16384 - 46)))) :=
  ⟨by norm_num, C1_stamp_checksum_both_slots (fun _ => 0) 16384 0 (by norm_num)⟩

set_option maxRecDepth 100000

theorem c1CexSliceShort : pageBytes (stamp_page_lsn_and_crc32 c1CexBase 16384 0) 4 22 =
    List.replicate 22 0 := by decide

theorem c1CexSliceLong : pageBytes (stamp_page_lsn_and_crc32 c1CexBase 16384 0) 4 34 =
    List.replicate 26 0 ++ 1 :: List.replicate 7 0 := by decide

theorem c1CexCrcNe : ut_crc32 (pageBytes (stamp_page_lsn_and_crc32 c1CexBase 16384 0) 4 22) ≠
    ut_crc32 (pageBytes (stamp_page_lsn_and_crc32 c1CexBase 16384 0) 4 34) := by
  rw [c1CexSliceShort, c1CexSliceLong]
  decide

/-- C1 counterexample: on a 16-KiB page whose byte 30 is nonzero, the stamped
checksum differs from `crc32(bytes[4..38)) XOR crc32(bytes[38..page_size-8))`:
the code checksums the header only up to offset 26, excluding the flush-LSN
and space-id fields. -/
theorem C1_counterexample :
    mach_read_from_4 (stamp_page_lsn_and_crc32 c1CexBase 16384 0) FIL_PAGE_SPACE_OR_CHKSUM ≠
      (ut_crc32 (pageBytes (stamp_page_lsn_and_crc32 c1CexBase 16384 0) 4 34)) ^^^
        (ut_crc32 (pageBytes (stamp_page_lsn_and_crc32 c1CexBase 16384 0) 38 16338)) := by
  have hs := (stamp_stored_checksums c1CexBase 16384 0 (by norm_num)).1
  rw [calc_page_crc32_ranges] at hs
  rw [show (16384 : Nat) - 46 = 16338 from rfl] at hs
  rw [hs]
  intro hcontra
  exact c1CexCrcNe (xor_right_cancel_nat _ _ _ hcontra)

/- ## decompress.cc: build_dir_groups and the SDI page-directory owners -/

def PAGE_DIR_SLOT_MIN_N_OWNED : Nat := 4
def PAGE_DIR_SLOT_MAX_N_OWNED : Nat := 8

/-- Loop body of `build_dir_groups` (decompress.cc): starting from
`remaining = user_recs + 1` (user records plus supremum), repeatedly push a
full group of `PAGE_DIR_SLOT_MAX_N_OWNED` while more than that remains, then
push the remainder as the final group. -/
def build_dir_groups_rem (r : Nat) : List Nat :=
  if h : PAGE_DIR_SLOT_MAX_N_OWNED < r then
    PAGE_DIR_SLOT_MAX_N_OWNED :: build_dir_groups_rem (r - PAGE_DIR_SLOT_MAX_N_OWNED)
  else [r]
termination_by r
decreasing_by
  simp only [PAGE_DIR_SLOT_MAX_N_OWNED] at h ⊢
  omega

/-- `build_dir_groups` (decompress.cc). -/
def build_dir_groups (user_recs : Nat) : List Nat :=
  build_dir_groups_rem (user_recs + 1)

/-- Owner of a directory group: a user record by heap index, or supremum. -/
inductive DirOwner
  | user (idx : Nat)
  | supremum
deriving DecidableEq

/-- The owner-assignment loop of `populate_sdi_root_page` (decompress.cc):
`rec_index += group - 1`; the record at that index (or supremum, when the
index reaches the record count) receives `n_owned = group`; `rec_index += 1`. -/
def assign_owner_groups_go : List Nat → Nat → Nat → List (DirOwner × Nat)
  | [], _, _ => []
  | g :: gs, recIndex, nrecs =>
    let ownerIdx := recIndex + g - 1
    let owner := if ownerIdx < nrecs then DirOwner.user ownerIdx else DirOwner.supremum
    (owner, g) :: assign_owner_groups_go gs (ownerIdx + 1) nrecs

/-- Owners chosen for the groups over `nrecs` user records. -/
def assign_owner_groups (groups : List Nat) (nrecs : Nat) : List (DirOwner × Nat) :=
  assign_owner_groups_go groups 0 nrecs

theorem build_dir_groups_rem_mem (r : Nat) :
    1 ≤ r → ∀ g ∈ build_dir_groups_rem r, 1 ≤ g ∧ g ≤ PAGE_DIR_SLOT_MAX_N_OWNED := by
  induction r using Nat.strong_induction_on with
  | _ r ih =>
    intro h1 g hg
    rw [build_dir_groups_rem] at hg
    split at hg
    · rcases List.mem_cons.mp hg with rfl | hmem
      · exact ⟨by norm_num [PAGE_DIR_SLOT_MAX_N_OWNED], le_refl _⟩
      · refine ih (r - PAGE_DIR_SLOT_MAX_N_OWNED) ?_ ?_ g hmem
        · simp only [PAGE_DIR_SLOT_MAX_N_OWNED] at *
          omega
        · simp only [PAGE_DIR_SLOT_MAX_N_OWNED] at *
          omega
    · rename_i hnot
      rw [List.mem_singleton] at hg
      subst hg
      simp only [PAGE_DIR_SLOT_MAX_N_OWNED] at hnot
      exact ⟨h1, by simp only [PAGE_DIR_SLOT_MAX_N_OWNED]; omega⟩

theorem build_dir_groups_rem_sum (r : Nat) :
    (build_dir_groups_rem r).sum = r := by
  induction r using Nat.strong_induction_on with
  | _ r ih =>
    rw [build_dir_groups_rem]
    split
    · rename_i h
      rw [List.sum_cons, ih (r - PAGE_DIR_SLOT_MAX_N_OWNED)
          (by simp only [PAGE_DIR_SLOT_MAX_N_OWNED] at *; omega)]
      simp only [PAGE_DIR_SLOT_MAX_N_OWNED] at *
      omega
    · simp

theorem build_dir_groups_rem_ne_nil (r : Nat) : build_dir_groups_rem r ≠ [] := by
  rw [build_dir_groups_rem]
  split <;> simp

theorem assign_owner_groups_go_length (gs : List Nat) (r0 n : Nat) :
    (assign_owner_groups_go gs r0 n).length = gs.length := by
  induction gs generalizing r0 with
  | nil => rfl
  | cons g t ih => simp [assign_owner_groups_go, ih]

theorem assign_owner_groups_go_snd (gs : List Nat) (r0 n : Nat) :
    (assign_owner_groups_go gs r0 n).map Prod.snd = gs := by
  induction gs generalizing r0 with
  | nil => rfl
  | cons g t ih => simp [assign_owner_groups_go, ih]

theorem getLast?_cons_of_ne_nil {A : Type} (a : A) (l : List A) (h : l ≠ []) :
    (a :: l).getLast? = l.getLast? := by
  cases l with
  | nil => exact absurd rfl h
  | cons b t => exact List.getLast?_cons_cons

theorem assign_owner_groups_go_last (gs : List Nat) (r0 n : Nat)
    (hpos : ∀ g ∈ gs, 1 ≤ g) (hsum : r0 + gs.sum = n + 1) (hne : gs ≠ []) :
    (assign_owner_groups_go gs r0 n).getLast? =
      some (DirOwner.supremum, gs.getLast?.getD 0) := by
  induction gs generalizing r0 with
  | nil => exact absurd rfl hne
  | cons g t ih =>
    cases t with
    | nil =>
      have hg : 1 ≤ g := hpos g (List.mem_cons_self g [])
      simp only [List.sum_cons, List.sum_nil, Nat.add_zero] at hsum
      have howner : ¬ (r0 + g - 1 < n) := by omega
      simp [assign_owner_groups_go, howner]
    | cons b t2 =>
      have hrec := ih (r0 + g - 1 + 1)
        (fun x hx => hpos x (List.mem_cons_of_mem g hx))
        (by simp only [List.sum_cons] at hsum ⊢
            have hg : 1 ≤ g := hpos g (List.mem_cons_self g _)
            omega)
        (by simp)
      have hner : assign_owner_groups_go (b :: t2) (r0 + g - 1 + 1) n ≠ [] := by
        intro hnil
        have hl := assign_owner_groups_go_length (b :: t2) (r0 + g - 1 + 1) n
        rw [hnil] at hl
        simp at hl
      show ((if r0 + g - 1 < n then DirOwner.user (r0 + g - 1) else DirOwner.supremum, g) ::
          assign_owner_groups_go (b :: t2) (r0 + g - 1 + 1) n).getLast? = _
      rw [getLast?_cons_of_ne_nil _ _ hner, hrec, List.getLast?_cons_cons]

theorem assign_owner_groups_go_users (gs : List Nat) (r0 n : Nat)
    (hpos : ∀ g ∈ gs, 1 ≤ g) (hsum : r0 + gs.sum = n + 1) :
    ∀ k, k + 1 < (assign_owner_groups_go gs r0 n).length →
      ∃ i, i < n ∧ (assign_owner_groups_go gs r0 n).getD k (DirOwner.supremum, 0) =
        (DirOwner.user i, gs.getD k 0) := by
  induction gs generalizing r0 with
  | nil => intro k hk; simp [assign_owner_groups_go] at hk
  | cons g t ih =>
    intro k hk
    rw [assign_owner_groups_go_length] at hk
    cases t with
    | nil => simp at hk
    | cons b t2 =>
      have hg : 1 ≤ g := hpos g (List.mem_cons_self g _)
      have hb : 1 ≤ b := hpos b (List.mem_cons_of_mem g (List.mem_cons_self b _))
      cases k with
      | zero =>
        have howner : r0 + g - 1 < n := by
          simp only [List.sum_cons] at hsum
          omega
        refine ⟨r0 + g - 1, howner, ?_⟩
        simp [assign_owner_groups_go, howner]
      | succ k2 =>
        have hrec := ih (r0 + g - 1 + 1)
          (fun x hx => hpos x (List.mem_cons_of_mem g hx))
          (by simp only [List.sum_cons] at hsum ⊢; omega)
          k2 (by rw [assign_owner_groups_go_length]; simpa using hk)
        obtain ⟨i, hi, heq⟩ := hrec
        refine ⟨i, hi, ?_⟩
        simpa [assign_owner_groups_go] using heq

/-- C2 (amended).  For every ordered list of n SDI entries (n >= 0) that
populate_sdi_root_page lays out on the rebuilt SDI root page, every
page-directory ownership group it creates has between 1 and
PAGE_DIR_SLOT_MAX_N_OWNED members, the last group terminates at supremum, and
each group's last record carries n_owned equal to its group size (every
non-last group ends at a user record). -/
theorem C2_dir_groups (n : Nat) :
    (∀ g ∈ build_dir_groups n, 1 ≤ g ∧ g ≤ PAGE_DIR_SLOT_MAX_N_OWNED) ∧
    (assign_owner_groups (build_dir_groups n) n).map Prod.snd = build_dir_groups n ∧
    (assign_owner_groups (build_dir_groups n) n).getLast? =
      some (DirOwner.supremum, (build_dir_groups n).getLast?.getD 0) ∧
    (∀ k, k + 1 < (assign_owner_groups (build_dir_groups n) n).length →
      ∃ i, i < n ∧
        (assign_owner_groups (build_dir_groups n) n).getD k (DirOwner.supremum, 0) =
          (DirOwner.user i, (build_dir_groups n).getD k 0)) := by
  have hpos := build_dir_groups_rem_mem (n + 1) (by omega)
  have hsum : 0 + (build_dir_groups_rem (n + 1)).sum = n + 1 := by
    rw [Nat.zero_add, build_dir_groups_rem_sum]
  exact ⟨fun g hg => hpos g hg,
    assign_owner_groups_go_snd _ 0 n,
    assign_owner_groups_go_last _ 0 n (fun g hg => (hpos g hg).1) hsum
      (build_dir_groups_rem_ne_nil _),
    assign_owner_groups_go_users _ 0 n (fun g hg => (hpos g hg).1) hsum⟩

/-- C2 witness: nine entries yield groups [8, 2]; the theorem applied at 9. -/
theorem C2_dir_groups_witness :
    (8 ∈ build_dir_groups 9 ∧ 1 ≤ 8 ∧ 8 ≤ PAGE_DIR_SLOT_MAX_N_OWNED) ∧
    (assign_owner_groups (build_dir_groups 9) 9).map Prod.snd = build_dir_groups 9 ∧
    (assign_owner_groups (build_dir_groups 9) 9).getLast? =
      some (DirOwner.supremum, (build_dir_groups 9).getLast?.getD 0) ∧
    (0 + 1 < (assign_owner_groups (build_dir_groups 9) 9).length ∧
      ∃ i, i < 9 ∧
        (assign_owner_groups (build_dir_groups 9) 9).getD 0 (DirOwner.supremum, 0) =
          (DirOwner.user i, (build_dir_groups 9).getD 0 0)) := by
  have h := C2_dir_groups 9
  have hmem : 8 ∈ build_dir_groups 9 := by
    simp [build_dir_groups, build_dir_groups_rem, PAGE_DIR_SLOT_MAX_N_OWNED]
  have hlen : 0 + 1 < (assign_owner_groups (build_dir_groups 9) 9).length := by
    rw [assign_owner_groups, assign_owner_groups_go_length]
    simp [build_dir_groups, build_dir_groups_rem, PAGE_DIR_SLOT_MAX_N_OWNED]
  exact ⟨⟨hmem, h.1 8 hmem⟩, h.2.1, h.2.2.1, hlen, h.2.2.2 0 hlen⟩

/-- C2 counterexample: with zero entries build_dir_groups produces the single
group [1] (supremum alone), whose size is below PAGE_DIR_SLOT_MIN_N_OWNED = 4,
so groups are not always at least PAGE_DIR_SLOT_MIN_N_OWNED strong. -/
theorem C2_counterexample :
    1 ∈ build_dir_groups 0 ∧ 1 < PAGE_DIR_SLOT_MIN_N_OWNED := by
  constructor
  · simp [build_dir_groups, build_dir_groups_rem, PAGE_DIR_SLOT_MAX_N_OWNED]
  · norm_num [PAGE_DIR_SLOT_MIN_N_OWNED]

/- ## undrop_for_innodb.cc: external LOB value assembly (read_external_lob_value) -/

def BTR_EXTERN_FIELD_REF_SIZE : Nat := 20
def BTR_EXTERN_SPACE_ID : Nat := 0
def BTR_EXTERN_PAGE_NO : Nat := 4
def BTR_EXTERN_OFFSET : Nat := 8
def BTR_EXTERN_LEN : Nat := 12
def BTR_EXTERN_BEING_MODIFIED_FLAG : Nat := 32

/-- An external LOB reference as decoded by read_external_lob_value. -/
structure LobRef where
  space_id : Nat
  page_no : Nat
  offset : Nat
  version : Nat
  length : Nat
  being_modified : Bool
deriving DecidableEq

/-- Big-endian read of `width` bytes from a byte list at `off`. -/
def listRead (bs : List Nat) (off width : Nat) : Nat :=
  (List.range width).foldl (fun a j => a * 256 + bs.getD (off + j) 0 % 256) 0

/-- Decode the 20-byte external reference stored at the end of the in-record
field (read_external_lob_value, undrop_for_innodb.cc): the version is read
from the offset slot, the length from the low four bytes of the 8-byte
length, and being-modified from bit 0x20 of the length's first byte. -/
def parse_lob_ref (field : List Nat) (field_len : Nat) : LobRef :=
  let refBytes := field.drop (field_len - BTR_EXTERN_FIELD_REF_SIZE)
  { space_id := listRead refBytes BTR_EXTERN_SPACE_ID 4
    page_no := listRead refBytes BTR_EXTERN_PAGE_NO 4
    offset := listRead refBytes BTR_EXTERN_OFFSET 4
    version := listRead refBytes BTR_EXTERN_OFFSET 4
    length := listRead refBytes (BTR_EXTERN_LEN + 4) 4
    being_modified :=
      decide ((listRead refBytes BTR_EXTERN_LEN 1) &&& BTR_EXTERN_BEING_MODIFIED_FLAG ≠ 0) }

/-- `target_total` computation of read_external_lob_value: the limit applies
only when nonzero and smaller than the total. -/
def lob_target_total (local_len ref_len lob_max_bytes : Nat) : Nat :=
  if 0 < lob_max_bytes ∧ lob_max_bytes < local_len + ref_len then lob_max_bytes
  else local_len + ref_len

/-- `copy_len` computation of read_external_lob_value: the inline prefix is
clipped to the target total. -/
def lob_copy_len (local_len lob_max_bytes target_total : Nat) : Nat :=
  if 0 < local_len then
    (if 0 < lob_max_bytes ∧ target_total < local_len then target_total else local_len)
  else 0

/-- `want` computation of read_external_lob_value: how many chain bytes to
request given what is already in the output. -/
def lob_want (out_len ref_len lob_max_bytes target_total : Nat) : Nat :=
  if 0 < lob_max_bytes ∧ target_total < out_len + ref_len then target_total - out_len
  else ref_len

/-- read_external_lob_value (undrop_for_innodb.cc).  The LOB chain reader
(read_lob_external) is abstracted as an oracle returning the bytes it appends
for a requested byte count; the call fails when the oracle returns a different
count than requested.  Returns the assembled column value bytes and the
truncation flag, or none on failure. -/
def read_external_lob_value (field : List Nat) (field_len lob_max_bytes : Nat)
    (readChain : LobRef → Nat → List Nat) : Option (List Nat × Bool) :=
  if field_len < BTR_EXTERN_FIELD_REF_SIZE then none
  else
    let local_len := field_len - BTR_EXTERN_FIELD_REF_SIZE
    let ref := parse_lob_ref field field_len
    if ref.being_modified then none
    else
      let target_total := lob_target_total local_len ref.length lob_max_bytes
      let trunc0 := decide (0 < lob_max_bytes ∧ lob_max_bytes < local_len + ref.length)
      let copy_len := lob_copy_len local_len lob_max_bytes target_total
      let trunc1 :=
        trunc0 || decide (0 < local_len ∧ 0 < lob_max_bytes ∧ target_total < local_len)
      let out1 := field.take copy_len
      if ref.length = 0 ∨ target_total ≤ out1.length then some (out1, trunc1)
      else
        let chain := readChain ref (lob_want out1.length ref.length lob_max_bytes target_total)
        if chain.length = lob_want out1.length ref.length lob_max_bytes target_total then
          some (out1 ++ chain, trunc1)
        else none

theorem lob_target_total_eq_min (L R M : Nat) (h : 0 < M) :
    lob_target_total L R M = min (L + R) M := by
  unfold lob_target_total
  split <;> omega

theorem lob_copy_len_le (L M t : Nat) (h : 0 < M) : lob_copy_len L M t ≤ t := by
  unfold lob_copy_len
  split
  · split <;> omega
  · omega

theorem lob_want_add_le (outl R M t : Nat) (h : 0 < M) (h2 : outl < t) :
    outl + lob_want outl R M t ≤ t := by
  unfold lob_want
  split <;> omega

/-- C3 (amended).  For every external LOB reference encountered while
formatting a record in extract mode, with a configured nonzero lob_max_bytes
limit, the number of bytes produced for that column value is at most
min(local_prefix_len + reference.length, lob_max_bytes), where
local_prefix_len = field_len - 20 is the length of the inline prefix stored
before the 20-byte reference. -/
theorem C3_lob_bytes_bound (field : List Nat) (field_len lob_max_bytes : Nat)
    (readChain : LobRef → Nat → List Nat) (out : List Nat) (t : Bool)
    (hlimit : 0 < lob_max_bytes)
    (h : read_external_lob_value field field_len lob_max_bytes readChain = some (out, t)) :
    out.length ≤ min (field_len - BTR_EXTERN_FIELD_REF_SIZE +
      (parse_lob_ref field field_len).length) lob_max_bytes := by
  simp only [read_external_lob_value] at h
  split at h
  · exact absurd h (by simp)
  split at h
  · exact absurd h (by simp)
  rw [lob_target_total_eq_min _ _ _ hlimit] at h
  split at h
  · rw [Option.some.injEq, Prod.mk.injEq] at h
    obtain ⟨hout, -⟩ := h
    subst hout
    calc (List.take (lob_copy_len (field_len - BTR_EXTERN_FIELD_REF_SIZE) lob_max_bytes
            (min (field_len - BTR_EXTERN_FIELD_REF_SIZE +
              (parse_lob_ref field field_len).length) lob_max_bytes)) field).length
        ≤ lob_copy_len (field_len - BTR_EXTERN_FIELD_REF_SIZE) lob_max_bytes
            (min (field_len - BTR_EXTERN_FIELD_REF_SIZE +
              (parse_lob_ref field field_len).length) lob_max_bytes) :=
          List.length_take_le _ _
      _ ≤ _ := lob_copy_len_le _ _ _ hlimit
  · rename_i hnoearly
    split at h
    · rename_i hchain
      rw [Option.some.injEq, Prod.mk.injEq] at h
      obtain ⟨hout, -⟩ := h
      subst hout
      rw [List.length_append, hchain]
      simp only [not_or, not_le] at hnoearly
      exact lob_want_add_le _ _ _ _ hlimit hnoearly.2
    · exact absurd h (by simp)

/-- Concrete 21-byte field: one inline prefix byte (65) followed by a 20-byte
reference whose length is 1 and whose being-modified flag is clear. -/
def c3Field : List Nat := 65 :: (List.replicate 16 0 ++ [0, 0, 0, 1])

/-- Chain oracle returning exactly the requested number of zero bytes. -/
def c3Chain : LobRef → Nat → List Nat := fun _ w => List.replicate w 0

/-- C3 witness: the bound holds on the concrete field and oracle. -/
theorem C3_lob_bytes_bound_witness :
    0 < 100 ∧
    read_external_lob_value c3Field 21 100 c3Chain = some ([65, 0], false) ∧
    ([65, 0] : List Nat).length ≤ min (21 - BTR_EXTERN_FIELD_REF_SIZE +
      (parse_lob_ref c3Field 21).length) 100 :=
  ⟨by norm_num, by decide,
    C3_lob_bytes_bound c3Field 21 100 c3Chain [65, 0] false (by norm_num) (by decide)⟩

/-- C3 counterexample: the same run produces 2 bytes (one inline prefix byte
plus one chain byte), exceeding min(reference.length, lob_max_bytes) = 1, so
the bound as claimed (without the local prefix) is violated. -/
theorem C3_counterexample :
    read_external_lob_value c3Field 21 100 c3Chain = some ([65, 0], false) ∧
    min (parse_lob_ref c3Field 21).length 100 < ([65, 0] : List Nat).length := by
  exact ⟨by decide, by decide⟩

/- ## undrop_for_innodb.cc: COMPACT variable-length header walk -/

/-- Engine-internal column type categories (tables_dict field types). -/
inductive FieldType
  | FT_NONE | FT_INT | FT_UINT | FT_FLOAT | FT_DOUBLE | FT_CHAR | FT_TEXT
  | FT_BLOB | FT_BIN | FT_DATE | FT_TIME | FT_DATETIME | FT_TIMESTAMP
  | FT_YEAR | FT_ENUM | FT_SET | FT_BIT | FT_DECIMAL | FT_INTERNAL
deriving DecidableEq

/-- The pieces of field_def_t consulted by ibrec_init_offsets_new. -/
structure field_def where
  type : FieldType
  can_be_null : Bool
  fixed_length : Nat
  max_length : Nat
deriving DecidableEq

/-- One non-NULL zero-fixed-length column step of ibrec_init_offsets_new
(undrop_for_innodb.cc, the `fld->fixed_length == 0` branch): `b1` is the next
length byte (`*lens`), `b2` the byte after it.  Returns the number of length
bytes consumed, the offset advance, and the externally-stored flag. -/
def compact_varlen_step (fld : field_def) (b1 b2 : Nat) : Nat × Nat × Bool :=
  if (255 < fld.max_length ∨ fld.type = FieldType.FT_BLOB ∨ fld.type = FieldType.FT_TEXT)
      ∧ (b1 % 256) &&& 0x80 ≠ 0 then
    (2, (((b1 % 256) <<< 8) ||| (b2 % 256)) &&& 0x3fff,
      decide ((((b1 % 256) <<< 8) ||| (b2 % 256)) &&& 0x4000 ≠ 0))
  else
    (1, b1 % 256, false)

/-- Per-column dispatch of ibrec_init_offsets_new: NULL columns consume no
length bytes and do not advance; nonzero fixed-length columns advance by the
fixed length; the rest consume length bytes via compact_varlen_step. -/
def compact_field_advance (fld : field_def) (is_null : Bool) (b1 b2 : Nat) :
    Nat × Nat × Bool :=
  if is_null then (0, 0, false)
  else if fld.fixed_length ≠ 0 then (0, fld.fixed_length, false)
  else compact_varlen_step fld b1 b2

/-- C4.  When computing the per-record offset array for a COMPACT record, for
every non-NULL column with zero fixed length exactly one length byte is
consumed, and a second length byte is consumed exactly when the column's
declared max length is greater than 255 or its type is BLOB/TEXT, and the
first length byte's high bit is set; in that two-byte case the low 14 bits of
the two-byte value encode the real length and bit 14 (0x4000) marks the field
as stored externally. -/
theorem C4_compact_varlen (fld : field_def) (b1 b2 : Nat)
    (hfix : fld.fixed_length = 0) :
    compact_field_advance fld false b1 b2 = compact_varlen_step fld b1 b2 ∧
    ((compact_varlen_step fld b1 b2).1 = 2 ∨ (compact_varlen_step fld b1 b2).1 = 1) ∧
    ((compact_varlen_step fld b1 b2).1 = 2 ↔
      ((255 < fld.max_length ∨ fld.type = FieldType.FT_BLOB ∨
          fld.type = FieldType.FT_TEXT) ∧ (b1 % 256) &&& 0x80 ≠ 0)) ∧
    ((compact_varlen_step fld b1 b2).1 = 2 →
      (compact_varlen_step fld b1 b2).2.1 = (((b1 % 256) <<< 8) ||| (b2 % 256)) % 16384 ∧
      ((compact_varlen_step fld b1 b2).2.2 = true ↔
        (((b1 % 256) <<< 8) ||| (b2 % 256)) / 16384 % 2 = 1)) ∧
    ((compact_varlen_step fld b1 b2).1 = 1 →
      (compact_varlen_step fld b1 b2).2.1 = b1 % 256 ∧
      (compact_varlen_step fld b1 b2).2.2 = false) := by
  have hmask : ∀ x : Nat, x &&& 0x3fff = x % 16384 := by
    intro x
    have h2 := Nat.and_pow_two_sub_one_eq_mod x 14
    norm_num at h2
    exact h2
  have hbit : ∀ x : Nat, (x &&& 0x4000 ≠ 0) ↔ x / 16384 % 2 = 1 := by
    intro x
    have h2 := Nat.and_two_pow x 14
    rw [Nat.testBit_to_div_mod] at h2
    norm_num at h2
    rw [h2]
    by_cases hd : x / 16384 % 2 = 1
    · simp [hd]
    · simp [hd]
  refine ⟨by simp [compact_field_advance, hfix], ?_, ?_, ?_, ?_⟩
  · unfold compact_varlen_step
    split <;> simp
  · unfold compact_varlen_step
    split <;> rename_i hcond <;> simp_all
  · intro h2
    unfold compact_varlen_step at h2 ⊢
    split at h2
    · rename_i hcond
      rw [if_pos hcond]
      refine ⟨hmask _, ?_⟩
      rw [decide_eq_true_eq]
      exact hbit _
    · simp at h2
  · intro h1
    unfold compact_varlen_step at h1 ⊢
    split at h1
    · simp at h1
    · rename_i hcond
      rw [if_neg hcond]
      exact ⟨rfl, rfl⟩

/-- A VARCHAR-style column: max length 4000, not BLOB/TEXT, no fixed length. -/
def c4Field : field_def :=
  { type := FieldType.FT_CHAR, can_be_null := false, fixed_length := 0,
    max_length := 4000 }

/-- C4 witness: first length byte 0xC5 (high bit set) and second byte 0x02
consume two bytes; length 0x0502 = 1282 with the externally-stored bit set. -/
theorem C4_compact_varlen_witness :
    c4Field.fixed_length = 0 ∧
    compact_varlen_step c4Field 0xC5 0x02 = (2, 1282, true) ∧
    ((compact_varlen_step c4Field 0xC5 0x02).1 = 2 ↔
      ((255 < c4Field.max_length ∨ c4Field.type = FieldType.FT_BLOB ∨
        c4Field.type = FieldType.FT_TEXT) ∧ (0xC5 % 256) &&& 0x80 ≠ 0)) :=
  ⟨rfl, by decide, (C4_compact_varlen c4Field 0xC5 0x02 rfl).2.2.1⟩

/- ## undrop_for_innodb.cc: old-format compressed LOB chains (read_zblob_external) -/

/-- Fields of a ZBLOB chain page consulted by read_zblob_external: the page
type and the FIL_PAGE_NEXT pointer. -/
structure ZblobPage where
  page_type : Nat
  next_page : Nat
deriving DecidableEq

/-- Per-page data offset of read_zblob_external (undrop_for_innodb.cc): the
loop variable `offset` starts as the reference's offset and is reset to
FIL_PAGE_NEXT after the first page as a sentinel; the sentinel maps to
FIL_PAGE_DATA and any other offset gets 4 added to it. -/
def zblob_data_offset (offset : Nat) : Nat :=
  if offset = FIL_PAGE_NEXT then FIL_PAGE_DATA else offset + 4

/-- Trace of (page number, data offset) pairs fed to the streaming inflater by
read_zblob_external.  `pages` maps a page number to its header fields (none
models a failed read), `cont k` tells whether the zlib stream state after the
step with fuel k allowed the loop to continue (avail_out still positive and
inflate returned Z_OK or Z_BUF_ERROR), and the fuel counts the remaining loop
steps, capped at 100000 in the code. -/
def read_zblob_external_go (pages : Nat → Option ZblobPage) (physical : Nat)
    (cont : Nat → Bool) : Nat → Nat → Nat → List (Nat × Nat)
  | 0, _, _ => []
  | fuel + 1, page_no, offset =>
    if page_no = FIL_NULL then []
    else
      match pages page_no with
      | none => []
      | some pg =>
        if pg.page_type ≠ FIL_PAGE_TYPE_ZBLOB ∧ pg.page_type ≠ FIL_PAGE_TYPE_ZBLOB2 ∧
            pg.page_type ≠ FIL_PAGE_SDI_ZBLOB then []
        else
          if physical ≤ zblob_data_offset offset then []
          else
            (page_no, zblob_data_offset offset) ::
              (if cont fuel then
                read_zblob_external_go pages physical cont fuel pg.next_page FIL_PAGE_NEXT
              else [])

/-- read_zblob_external's per-page data offsets: empty when nothing is wanted
or the reference's page is FIL_NULL, otherwise the loop trace from the
reference's page and offset. -/
def read_zblob_external_offsets (pages : Nat → Option ZblobPage) (physical : Nat)
    (cont : Nat → Bool) (ref : LobRef) (want : Nat) : List (Nat × Nat) :=
  if want = 0 ∨ ref.page_no = FIL_NULL then []
  else read_zblob_external_go pages physical cont 100000 ref.page_no ref.offset

theorem read_zblob_external_go_sentinel (pages : Nat → Option ZblobPage)
    (physical : Nat) (cont : Nat → Bool) :
    ∀ fuel page_no,
      ∀ e ∈ read_zblob_external_go pages physical cont fuel page_no FIL_PAGE_NEXT,
        e.2 = FIL_PAGE_DATA := by
  intro fuel
  induction fuel with
  | zero =>
    intro pno e he
    simp [read_zblob_external_go] at he
  | succ f ih =>
    intro pno e he
    simp only [read_zblob_external_go] at he
    split at he
    · simp at he
    · split at he
      · simp at he
      · split at he
        · simp at he
        · split at he
          · simp at he
          · rcases List.mem_cons.mp he with rfl | hmem
            · simp [zblob_data_offset, FIL_PAGE_NEXT, FIL_PAGE_DATA]
            · split at hmem
              · exact ih _ _ hmem
              · simp at hmem

theorem read_zblob_external_go_head (pages : Nat → Option ZblobPage)
    (physical : Nat) (cont : Nat → Bool) (fuel page_no off : Nat) :
    ∀ e ∈ (read_zblob_external_go pages physical cont fuel page_no off).take 1,
      e.2 = zblob_data_offset off ∧ e.2 < physical := by
  cases fuel with
  | zero =>
    intro e he
    simp [read_zblob_external_go] at he
  | succ f =>
    intro e he
    simp only [read_zblob_external_go] at he
    split at he
    · simp at he
    · split at he
      · simp at he
      · split at he
        · simp at he
        · split at he
          · simp at he
          · rename_i hin
            rw [show (1 : Nat) = 0 + 1 from rfl, List.take_succ_cons, List.take_zero,
              List.mem_singleton] at he
            subst he
            exact ⟨rfl, by omega⟩

theorem read_zblob_external_go_tail (pages : Nat → Option ZblobPage)
    (physical : Nat) (cont : Nat → Bool) (fuel page_no off : Nat) :
    ∀ e ∈ (read_zblob_external_go pages physical cont fuel page_no off).drop 1,
      e.2 = FIL_PAGE_DATA := by
  cases fuel with
  | zero =>
    intro e he
    simp [read_zblob_external_go] at he
  | succ f =>
    intro e he
    simp only [read_zblob_external_go] at he
    split at he
    · simp at he
    · split at he
      · simp at he
      · split at he
        · simp at he
        · split at he
          · simp at he
          · rw [show (1 : Nat) = 0 + 1 from rfl, List.drop_succ_cons, List.drop_zero] at he
            split at he
            · exact read_zblob_external_go_sentinel pages physical cont f _ e he
            · simp at he

/-- C5 (amended).  When reassembling an old-format compressed LOB chain
(ZBLOB/ZBLOB2/SDI_ZBLOB), the first page's deflate data begins at the
reference's offset plus 4 (or at FIL_PAGE_DATA when the reference's offset
equals the FIL_PAGE_NEXT sentinel value 12), and on every subsequent page of
the chain the deflate-stream data begins at offset FIL_PAGE_DATA; a page
whose computed data offset reaches the physical page size ends the chain. -/
theorem C5_zblob_chain_offsets (pages : Nat → Option ZblobPage) (physical : Nat)
    (cont : Nat → Bool) (ref : LobRef) (want : Nat) :
    (∀ e ∈ (read_zblob_external_offsets pages physical cont ref want).take 1,
        e.2 = zblob_data_offset ref.offset ∧ e.2 < physical) ∧
    (∀ e ∈ (read_zblob_external_offsets pages physical cont ref want).drop 1,
        e.2 = FIL_PAGE_DATA) ∧
    (ref.offset ≠ FIL_PAGE_NEXT →
      ∀ e ∈ (read_zblob_external_offsets pages physical cont ref want).take 1,
        e.2 = ref.offset + 4) := by
  refine ⟨?_, ?_, ?_⟩
  · intro e he
    unfold read_zblob_external_offsets at he
    split at he
    · simp at he
    · exact read_zblob_external_go_head pages physical cont 100000 ref.page_no ref.offset e he
  · intro e he
    unfold read_zblob_external_offsets at he
    split at he
    · simp at he
    · exact read_zblob_external_go_tail pages physical cont 100000 ref.page_no ref.offset e he
  · intro hoff e he
    unfold read_zblob_external_offsets at he
    split at he
    · simp at he
    · have := (read_zblob_external_go_head pages physical cont 100000
        ref.page_no ref.offset e he).1
      rw [this, zblob_data_offset, if_neg hoff]

/-- Two-page ZBLOB chain: page 5 links to page 6, page 6 ends the chain. -/
def c5Pages : Nat → Option ZblobPage := fun n =>
  if n = 5 then some { page_type := 11, next_page := 6 }
  else if n = 6 then some { page_type := 11, next_page := 4294967295 }
  else none

/-- Reference into the chain: first page 5, offset 38 (FIL_PAGE_DATA). -/
def c5Ref : LobRef :=
  { space_id := 0, page_no := 5, offset := 38, version := 38, length := 100,
    being_modified := false }

/-- C5 witness: the amended offsets on the concrete two-page chain. -/
theorem C5_zblob_chain_offsets_witness :
    read_zblob_external_offsets c5Pages 8192 (fun _ => true) c5Ref 100 = [(5, 42), (6, 38)] ∧
    ((5, 42) ∈ (read_zblob_external_offsets c5Pages 8192 (fun _ => true) c5Ref 100).take 1 ∧
      (42 : Nat) = zblob_data_offset c5Ref.offset ∧ (42 : Nat) < 8192) ∧
    ((6, 38) ∈ (read_zblob_external_offsets c5Pages 8192 (fun _ => true) c5Ref 100).drop 1 ∧
      (38 : Nat) = FIL_PAGE_DATA) := by
  refine ⟨by decide, ⟨by decide, ?_, by decide⟩, ⟨by decide, by decide⟩⟩
  have h := (C5_zblob_chain_offsets c5Pages 8192 (fun _ => true) c5Ref 100).1
    (5, 42) (by decide)
  exact h.1

/-- C5 counterexample: on the concrete chain the first page's data offset is
42 = reference offset + 4 (not the reference's offset 38 as claimed), and the
second page's data offset is 38 = FIL_PAGE_DATA (not FIL_PAGE_DATA + 4 = 42
as claimed). -/
theorem C5_counterexample :
    read_zblob_external_offsets c5Pages 8192 (fun _ => true) c5Ref 100 = [(5, 42), (6, 38)] ∧
    (42 : Nat) ≠ c5Ref.offset ∧ (38 : Nat) ≠ FIL_PAGE_DATA + 4 := by
  exact ⟨by decide, by decide, by decide⟩

/- ## decompress.cc: per-page decompression transform -/

/-- should_decompress_page (decompress.cc): only INDEX, RTREE and SDI pages
in a compressed tablespace (physical < logical) are zlib-compressed. -/
def should_decompress_page (src : Page) (physical logical : Nat) : Bool :=
  if logical ≤ physical then false
  else
    decide (mach_read_from_2 src FIL_PAGE_TYPE = FIL_PAGE_INDEX ∨
      mach_read_from_2 src FIL_PAGE_TYPE = FIL_PAGE_RTREE ∨
      mach_read_from_2 src FIL_PAGE_TYPE = FIL_PAGE_SDI)

/-- The output buffer after `memset(out, 0, len)` and `memcpy(out, src, n)`. -/
def copy_into_zeroed (src : Page) (n : Nat) : Page :=
  fun i => if i < n then src i % 256 else 0

/-- decompress_page_inplace (decompress.cc).  MySQL's page_zip_decompress_low
is abstracted as `zipResult`: some decompressed logical page, or none for a
zlib failure.  Returns the output buffer contents and the actual size, or
none when the whole call fails. -/
def decompress_page_inplace (src : Page) (physical logical : Nat)
    (zipResult : Option Page) : Option (Page × Nat) :=
  if ¬ should_decompress_page src physical logical then
    some (copy_into_zeroed src physical, physical)
  else if mach_read_from_2 src FIL_PAGE_TYPE = FIL_PAGE_INDEX then
    match zipResult with
    | some d => some (copy_into_zeroed d logical, logical)
    | none => none
  else if mach_read_from_2 src FIL_PAGE_TYPE = FIL_PAGE_RTREE then
    match zipResult with
    | some d => some (copy_into_zeroed d logical, logical)
    | none => some (copy_into_zeroed src physical, physical)
  else
    match zipResult with
    | some d => some (copy_into_zeroed d logical, logical)
    | none => none

/-- C6.  In the per-page decompression transform on a compressed tablespace,
a zlib decompression failure on an RTREE page is downgraded to pass-through:
the physical page is copied to the output at physical size and the call still
reports success; a decompression failure on an INDEX page makes the call
fail. -/
theorem C6_decompress_error_policy (src : Page) (physical logical : Nat)
    (hcomp : physical < logical) :
    (mach_read_from_2 src FIL_PAGE_TYPE = FIL_PAGE_RTREE →
      decompress_page_inplace src physical logical none =
        some (copy_into_zeroed src physical, physical)) ∧
    (mach_read_from_2 src FIL_PAGE_TYPE = FIL_PAGE_INDEX →
      decompress_page_inplace src physical logical none = none) := by
  constructor
  · intro ht
    have hsd : should_decompress_page src physical logical = true := by
      unfold should_decompress_page
      rw [if_neg (by omega)]
      simp [ht]
    unfold decompress_page_inplace
    rw [hsd]
    rw [if_neg (by simp), if_neg (by rw [ht]; decide), if_pos ht]
  · intro ht
    have hsd : should_decompress_page src physical logical = true := by
      unfold should_decompress_page
      rw [if_neg (by omega)]
      simp [ht]
    unfold decompress_page_inplace
    rw [hsd]
    rw [if_neg (by simp), if_pos ht]

/-- Concrete pages: an RTREE page (type 17854) and an INDEX page (17855). -/
def c6SrcRtree : Page := fun i => if i = 24 then 69 else if i = 25 then 190 else 0

def c6SrcIndex : Page := fun i => if i = 24 then 69 else if i = 25 then 191 else 0

/-- C6 witness: on a 4-KiB-physical, 16-KiB-logical tablespace, an RTREE zlib
failure passes the page through successfully and an INDEX zlib failure fails
the call. -/
theorem C6_decompress_error_policy_witness :
    (4096 : Nat) < 16384 ∧
    mach_read_from_2 c6SrcRtree FIL_PAGE_TYPE = FIL_PAGE_RTREE ∧
    decompress_page_inplace c6SrcRtree 4096 16384 none =
      some (copy_into_zeroed c6SrcRtree 4096, 4096) ∧
    mach_read_from_2 c6SrcIndex FIL_PAGE_TYPE = FIL_PAGE_INDEX ∧
    decompress_page_inplace c6SrcIndex 4096 16384 none = none :=
  ⟨by norm_num, by decide,
    (C6_decompress_error_policy c6SrcRtree 4096 16384 (by norm_num)).1 (by decide),
    by decide,
    (C6_decompress_error_policy c6SrcIndex 4096 16384 (by norm_num)).2 (by decide)⟩

/- ## decompress.cc: rebuild preconditions -/

/-- Failure cases of the rebuild guard sequence. -/
inductive RebuildError
  | notCompressed
  | unsupportedPageSize
  | badFileSize
deriving DecidableEq

/-- The guard sequence at the top of rebuild_uncompressed_ibd (decompress.cc):
reject uncompressed inputs (physical >= logical), logical sizes other than
UNIV_PAGE_SIZE_ORIG = 16384, and file sizes that are not a multiple of the
physical page size.  All three checks run before any output page is
written. -/
def rebuild_precheck (physical logical file_size : Nat) : Option RebuildError :=
  if logical ≤ physical then some RebuildError.notCompressed
  else if logical ≠ UNIV_PAGE_SIZE_ORIG then some RebuildError.unsupportedPageSize
  else if file_size % physical ≠ 0 then some RebuildError.badFileSize
  else none

/-- Pages written by rebuild_uncompressed_ibd: zero when the prechecks fail
(they precede the per-page loop), otherwise one output page per physical
input page. -/
def rebuild_pages_written (physical logical file_size : Nat) : Nat :=
  match rebuild_precheck physical logical file_size with
  | some _ => 0
  | none => file_size / physical

/-- C7.  rebuild_uncompressed_ibd fails, writing no output page, whenever the
probed physical page size is not strictly smaller than the logical page size
(input not compressed) or the logical page size is not 16384 bytes; when both
preconditions hold it proceeds past these checks. -/
theorem C7_rebuild_preconditions (physical logical file_size : Nat) :
    ((logical ≤ physical ∨ logical ≠ UNIV_PAGE_SIZE_ORIG) →
      (rebuild_precheck physical logical file_size = some RebuildError.notCompressed ∨
        rebuild_precheck physical logical file_size = some RebuildError.unsupportedPageSize) ∧
      rebuild_pages_written physical logical file_size = 0) ∧
    (physical < logical ∧ logical = UNIV_PAGE_SIZE_ORIG →
      rebuild_precheck physical logical file_size = none ∨
      rebuild_precheck physical logical file_size = some RebuildError.badFileSize) := by
  constructor
  · intro hbad
    have hres : rebuild_precheck physical logical file_size =
          some RebuildError.notCompressed ∨
        rebuild_precheck physical logical file_size =
          some RebuildError.unsupportedPageSize := by
      unfold rebuild_precheck
      rcases hbad with h | h
      · left
        rw [if_pos h]
      · by_cases h2 : logical ≤ physical
        · left
          rw [if_pos h2]
        · right
          rw [if_neg h2, if_pos h]
    refine ⟨hres, ?_⟩
    unfold rebuild_pages_written
    rcases hres with h | h <;> rw [h]
  · intro ⟨h1, h2⟩
    unfold rebuild_precheck
    rw [if_neg (by omega), if_neg (by simp [h2])]
    by_cases h3 : file_size % physical ≠ 0
    · right
      rw [if_pos h3]
    · left
      rw [if_neg h3]

/-- C7 witness: an uncompressed 16-KiB input fails before writing anything;
an 8-KiB-physical 16-KiB-logical input passes the two size checks. -/
theorem C7_rebuild_preconditions_witness :
    ((16384 : Nat) ≤ 16384 ∨ (16384 : Nat) ≠ UNIV_PAGE_SIZE_ORIG) ∧
    ((rebuild_precheck 16384 16384 163840 = some RebuildError.notCompressed ∨
      rebuild_precheck 16384 16384 163840 = some RebuildError.unsupportedPageSize) ∧
      rebuild_pages_written 16384 16384 163840 = 0) ∧
    ((8192 : Nat) < 16384 ∧ (16384 : Nat) = UNIV_PAGE_SIZE_ORIG) ∧
    (rebuild_precheck 8192 16384 163840 = none ∨
      rebuild_precheck 8192 16384 163840 = some RebuildError.badFileSize) :=
  ⟨Or.inl (by norm_num),
    (C7_rebuild_preconditions 16384 16384 163840).1 (Or.inl (by norm_num)),
    ⟨by norm_num, by norm_num [UNIV_PAGE_SIZE_ORIG]⟩,
    (C7_rebuild_preconditions 8192 16384 163840).2
      ⟨by norm_num, by norm_num [UNIV_PAGE_SIZE_ORIG]⟩⟩

/- ## parser.cc: leaf-page record-chain traversal -/

def REC_NEXT : Nat := 2
def REC_N_NEW_EXTRA_BYTES : Nat := 5
def REC_STATUS_ORDINARY : Nat := 0
def REC_STATUS_SUPREMUM : Nat := 3
def PAGE_HEADER : Nat := 38
def PAGE_N_RECS : Nat := 16
def PAGE_LEVEL : Nat := 26
def PAGE_NEW_INFIMUM : Nat := 99
def PAGE_NEW_SUPREMUM : Nat := 112

/-- rec_get_status: the low three bits of the byte three before the record
origin. -/
def rec_get_status (p : Page) (rec_offset : Nat) : Nat :=
  (p (rec_offset - 3) % 256) &&& 7

/-- next_compact_rec_offset (parser.cc): read the signed 16-bit next-record
delta stored two bytes before the origin, add it to the current offset,
reduce modulo the page size with C truncation semantics (adding page_size
when negative), and bounds-check the result against
[PAGE_NEW_INFIMUM, page_size). -/
def next_compact_rec_offset (p : Page) (rec_offset page_size : Nat) : Option Nat :=
  if rec_offset < REC_NEXT ∨ page_size ≤ rec_offset then none
  else
    let raw2 := mach_read_from_2 p (rec_offset - REC_NEXT)
    let delta : Int := if raw2 < 32768 then (raw2 : Int) else (raw2 : Int) - 65536
    if delta = 0 then none
    else
      let raw : Int := (rec_offset : Int) + delta
      let m0 : Int := Int.tmod raw (page_size : Int)
      let m : Int := if m0 < 0 then m0 + (page_size : Int) else m0
      if m < (PAGE_NEW_INFIMUM : Int) ∨ ((page_size : Int) ≤ m) then none
      else some m.toNat

/-- The record-chain loop of parse_records_on_page (parser.cc), counting loop
iterations.  An iteration halts the loop on supremum status, on a failed
next-offset computation, or when the next offset repeats the current one or
leaves the page; otherwise the loop continues while steps remain below the
cap (the fuel). -/
def parse_records_steps (p : Page) (page_size : Nat) : Nat → Nat → Nat
  | 0, _ => 0
  | fuel + 1, rec_offset =>
    if rec_get_status p rec_offset = REC_STATUS_SUPREMUM then 1
    else
      match next_compact_rec_offset p rec_offset page_size with
      | none => 1
      | some next_off =>
        if next_off = rec_offset ∨ page_size ≤ next_off then 1
        else 1 + parse_records_steps p page_size fuel next_off

/-- The traversal's iteration count with the step cap computed as in the
code: `page_size / (REC_N_NEW_EXTRA_BYTES + 1)`, raised to `n_recs + 2` when
smaller, starting from infimum. -/
def parse_records_iterations (p : Page) (page_size : Nat) : Nat :=
  let n_recs := mach_read_from_2 p (PAGE_HEADER + PAGE_N_RECS)
  let ms0 := page_size / (REC_N_NEW_EXTRA_BYTES + 1)
  let max_steps := if ms0 < n_recs + 2 then n_recs + 2 else ms0
  parse_records_steps p page_size max_steps PAGE_NEW_INFIMUM

theorem parse_records_steps_le (p : Page) (page_size : Nat) :
    ∀ fuel off, parse_records_steps p page_size fuel off ≤ fuel := by
  intro fuel
  induction fuel with
  | zero =>
    intro off
    simp [parse_records_steps]
  | succ f ih =>
    intro off
    simp only [parse_records_steps]
    split
    · omega
    · split
      · omega
      · split
        · omega
        · rename_i next_off hmatch hne
          have := ih next_off
          omega

/-- C9.  For every leaf page, the record-chain traversal performs at most
max(page_size / 6, PAGE_N_RECS + 2) iterations, halting earlier when a
record's status equals SUPREMUM or when the next-record offset computation
fails, repeats the current offset, or leaves the page; consequently the
traversal terminates on every input page, including pages with corrupted
next-pointers. -/
theorem C9_traversal_step_cap (p : Page) (page_size : Nat) :
    parse_records_iterations p page_size ≤
      max (page_size / 6) (mach_read_from_2 p (PAGE_HEADER + PAGE_N_RECS) + 2) := by
  unfold parse_records_iterations
  refine le_trans (parse_records_steps_le p page_size _ _) ?_
  simp only [REC_N_NEW_EXTRA_BYTES]
  split <;> omega

/- ## ib_parser.cc: extract-mode page loop guard -/

/-- The facts about one page that the guard cascade of the extract-mode page
loop (do_parse_main, ib_parser.cc) consults. -/
structure ExtractPageView where
  on_disk_page_no : Nat
  page_type : Nat
  is_free : Bool
  decompress_ok : Bool
  actual_is_logical : Bool
  is_comp : Bool
deriving DecidableEq

/-- Whether the loop iteration at ordinal position k reaches
parse_records_on_page: the stored page number must equal k, the page must
not be marked free in its extent descriptor, the type must be INDEX, on
compressed tablespaces the page must decompress to the full logical size,
and the page must use the COMPACT format. -/
def extract_page_parses (k : Nat) (pv : ExtractPageView)
    (tablespace_compressed : Bool) : Bool :=
  if pv.on_disk_page_no ≠ k then false
  else if pv.is_free then false
  else if pv.page_type ≠ FIL_PAGE_INDEX then false
  else if tablespace_compressed ∧ ¬ (pv.decompress_ok ∧ pv.actual_is_logical) then false
  else if ¬ pv.is_comp then false
  else true

/-- C10.  In the extract-mode page loop, a page read at ordinal position k in
the file is parsed only if the 4-byte page-number field stored in its header
equals k; on any mismatch the page is skipped entirely and contributes no
records, regardless of its page type or contents. -/
theorem C10_page_number_guard (k : Nat) (pv : ExtractPageView) (tc : Bool) :
    (extract_page_parses k pv tc = true → pv.on_disk_page_no = k) ∧
    (pv.on_disk_page_no ≠ k → extract_page_parses k pv tc = false) := by
  constructor
  · intro h
    by_contra hne
    unfold extract_page_parses at h
    rw [if_pos hne] at h
    exact Bool.false_ne_true h
  · intro hne
    unfold extract_page_parses
    rw [if_pos hne]

/-- C10 witness: a free INDEX page stored with page number 3 read at ordinal
2 is skipped even though every other guard would pass. -/
theorem C10_page_number_guard_witness :
    extract_page_parses 2
      { on_disk_page_no := 3, page_type := 17855, is_free := false,
        decompress_ok := true, actual_is_logical := true, is_comp := true }
      false = false ∧ (3 : Nat) ≠ 2 :=
  ⟨(C10_page_number_guard 2
      { on_disk_page_no := 3, page_type := 17855, is_free := false,
        decompress_ok := true, actual_is_logical := true, is_comp := true }
      false).2 (by norm_num), by norm_num⟩

/- ## Additional byte-writer lemmas for the SDI rebuild -/

theorem mach_read_from_2_congr (p q : Page) (off : Nat)
    (h : ∀ j, j < 2 → p (off + j) = q (off + j)) :
    mach_read_from_2 p off = mach_read_from_2 q off := by
  have h0 := h 0 (by omega)
  have h1 := h 1 (by omega)
  simp only [Nat.add_zero] at h0
  simp only [mach_read_from_2, h0, h1]

theorem mach_read_from_2_write_same (p : Page) (off v : Nat) :
    mach_read_from_2 (mach_write_to_2 p off v) off = v % 65536 := by
  simp only [mach_read_from_2, mach_write_to_2, writeByte]
  have h0 : off ≠ off + 1 := by omega
  simp only [if_pos rfl, if_neg h0, if_neg (Ne.symm h0)]
  simp only [Nat.shiftRight_eq_div_pow]
  norm_num
  omega

theorem mach_read_from_8_write_same (p : Page) (off v : Nat) :
    mach_read_from_8 (mach_write_to_8 p off v) off = v % 18446744073709551616 := by
  simp only [mach_read_from_8, mach_write_to_8]
  rw [mach_read_from_4_congr (mach_write_to_4 (mach_write_to_4 p off (v >>> 32)) (off + 4) v)
      (mach_write_to_4 p off (v >>> 32)) off
      (fun j hj => mach_write_to_4_outside _ _ _ _ (by omega))]
  rw [mach_read_from_4_write_same, mach_read_from_4_write_same]
  simp only [Nat.shiftRight_eq_div_pow]
  norm_num
  omega

/-- memcpy of a byte list into the page. -/
def writeBytesList (p : Page) (off : Nat) : List Nat → Page
  | [] => p
  | b :: bs => writeBytesList (writeByte p off b) (off + 1) bs

theorem writeBytesList_outside (bs : List Nat) (p : Page) (off i : Nat)
    (h : i < off ∨ off + bs.length ≤ i) : writeBytesList p off bs i = p i := by
  induction bs generalizing p off with
  | nil => rfl
  | cons b t ih =>
    simp only [writeBytesList]
    simp only [List.length_cons] at h
    rw [ih _ _ (by omega), writeByte_ne _ _ _ _ (by omega)]

theorem writeBytesList_inside (bs : List Nat) (p : Page) (off j : Nat)
    (hj : j < bs.length) :
    writeBytesList p off bs (off + j) = bs.getD j 0 % 256 := by
  induction bs generalizing p off j with
  | nil => simp at hj
  | cons b t ih =>
    cases j with
    | zero =>
      simp only [writeBytesList, Nat.add_zero]
      rw [writeBytesList_outside _ _ _ _ (by omega)]
      simp [writeByte]
    | succ k =>
      simp only [writeBytesList]
      rw [show off + (k + 1) = (off + 1) + k by omega]
      simp only [List.length_cons] at hj
      rw [ih _ _ _ (by omega)]
      simp

/-- memset(page + off, 0, len). -/
def zeroRange (p : Page) (off len : Nat) : Page :=
  fun i => if off ≤ i ∧ i < off + len then 0 else p i

theorem zeroRange_outside (p : Page) (off len i : Nat)
    (h : i < off ∨ off + len ≤ i) : zeroRange p off len i = p i := by
  simp only [zeroRange]
  rw [if_neg (by omega)]

theorem zeroRange_inside (p : Page) (off len i : Nat)
    (h : off ≤ i ∧ i < off + len) : zeroRange p off len i = 0 := by
  simp only [zeroRange]
  rw [if_pos h]

/- ## decompress.cc: SDI root-page record layout (populate_sdi_root_page) -/

def DATA_TRX_ID_LEN : Nat := 6
def DATA_ROLL_PTR_LEN : Nat := 7
def kSdiRecHeaderSize : Nat := 5
def kSdiRecOffType : Nat := 0
def kSdiRecOffId : Nat := 4
def kSdiRecOffTrxId : Nat := 12
def kSdiRecOffRollPtr : Nat := 18
def kSdiRecOffUncompLen : Nat := 25
def kSdiRecOffCompLen : Nat := 29
def kSdiRecOffVar : Nat := 33
def kSdiExternRefSize : Nat := 20
def kSdiExternSpaceId : Nat := 0
def kSdiExternPageNo : Nat := 4
def kSdiExternOffset : Nat := 8
def kSdiExternLen : Nat := 12
def kSdiLobHdrPartLen : Nat := 0
def kSdiLobHdrNextPageNo : Nat := 4
def kSdiLobHdrSize : Nat := 8
def PAGE_NEW_SUPREMUM_END : Nat := 120
def PAGE_DIR : Nat := 8
def PAGE_DIR_SLOT_SIZE : Nat := 2
def PAGE_HEAP_NO_USER_LOW : Nat := 2

/-- rec_set_bit_field_1: replace masked bits of one byte before the origin. -/
def rec_set_bit_field_1 (p : Page) (rec val offs mask shift : Nat) : Page :=
  writeByte p (rec - offs)
    (((p (rec - offs) % 256) &&& (255 - mask)) ||| ((val <<< shift) &&& mask))

/-- rec_set_bit_field_2: replace masked bits of the 16-bit field before the
origin. -/
def rec_set_bit_field_2 (p : Page) (rec val offs mask shift : Nat) : Page :=
  mach_write_to_2 p (rec - offs)
    ((mach_read_from_2 p (rec - offs) &&& (65535 - mask)) ||| ((val <<< shift) &&& mask))

/-- rec_set_n_owned_new: low nibble of the byte five before the origin. -/
def rec_set_n_owned_new (p : Page) (rec n : Nat) : Page :=
  rec_set_bit_field_1 p rec n 5 0xF 0

/-- rec_set_status: low three bits of the byte three before the origin. -/
def rec_set_status (p : Page) (rec s : Nat) : Page :=
  rec_set_bit_field_1 p rec s 3 0x7 0

/-- rec_set_heap_no_new: bits 3..15 of the 16-bit field four before the
origin. -/
def rec_set_heap_no_new (p : Page) (rec h : Nat) : Page :=
  rec_set_bit_field_2 p rec h 4 0xFFF8 3

/-- An SDI entry after zlib compression: compress_sdi_json is external, so
the compressed bytes are an input here. -/
structure SdiEntryComp where
  type : Nat
  id : Nat
  uncomp_len : Nat
  comp : List Nat
deriving DecidableEq

/-- The inline/external decision of populate_sdi_root_page for one entry:
a record goes external when its compressed length exceeds 0x3fff or the
inline record does not fit between the heap top and the directory start;
an external record needs a 2-byte prefix and a fixed 60-byte record, and
its own fit is checked too.  Returns (use_external, len_bytes, rec_size),
or none when even the chosen record does not fit. -/
def sdi_rec_place (heap_top dir_start comp_len : Nat) : Option (Bool × Nat × Nat) :=
  if 0x3fff < comp_len then
    if dir_start < heap_top + (kSdiRecHeaderSize + 2 + kSdiRecOffVar + kSdiExternRefSize)
    then none
    else some (true, 2, kSdiRecHeaderSize + 2 + kSdiRecOffVar + kSdiExternRefSize)
  else
    if dir_start < heap_top + (kSdiRecHeaderSize + (if comp_len ≤ 127 then 1 else 2) +
        kSdiRecOffVar + comp_len) then
      if dir_start < heap_top + (kSdiRecHeaderSize + 2 + kSdiRecOffVar + kSdiExternRefSize)
      then none
      else some (true, 2, kSdiRecHeaderSize + 2 + kSdiRecOffVar + kSdiExternRefSize)
    else
      some (false, if comp_len ≤ 127 then 1 else 2,
        kSdiRecHeaderSize + (if comp_len ≤ 127 then 1 else 2) + kSdiRecOffVar + comp_len)

/-- The variable-length prefix bytes of one SDI record
(populate_sdi_root_page): 0x00 0xC0 for external records (two-byte marker
0x80 plus externally-stored bit 0x40), the plain length for a one-byte
inline prefix, or low byte plus high-byte-with-0x80 for a two-byte inline
prefix. -/
def write_sdi_front (p : Page) (heap_top : Nat) (use_external : Bool)
    (len_bytes cl : Nat) : Page :=
  if use_external then
    writeByte (writeByte p heap_top 0) (heap_top + 1) 0xC0
  else if len_bytes = 1 then
    writeByte p heap_top cl
  else
    writeByte (writeByte p heap_top (cl % 256)) (heap_top + 1) ((cl >>> 8) ||| 0x80)

/-- The record's heap number, status and n_owned bits, written into the five
extra bytes before the origin. -/
def write_sdi_rec_extras (p : Page) (rec0 idx : Nat) : Page :=
  rec_set_n_owned_new
    (rec_set_status (rec_set_heap_no_new p rec0 (PAGE_HEAP_NO_USER_LOW + idx))
      rec0 REC_STATUS_ORDINARY) rec0 0

/-- The fixed record payload: type, id, trx id 0, roll pointer 0,
uncompressed and compressed lengths. -/
def write_sdi_rec_fixed (p : Page) (rec0 : Nat) (e : SdiEntryComp) (cl : Nat) : Page :=
  mach_write_to_4
    (mach_write_to_4
      (mach_write_to_7
        (mach_write_to_6
          (mach_write_to_8 (mach_write_to_4 p (rec0 + kSdiRecOffType) e.type)
            (rec0 + kSdiRecOffId) e.id)
          (rec0 + kSdiRecOffTrxId) 0)
        (rec0 + kSdiRecOffRollPtr) 0)
      (rec0 + kSdiRecOffUncompLen) e.uncomp_len)
    (rec0 + kSdiRecOffCompLen) cl

/-- The 20-byte external reference: space id, first blob page, FIL_PAGE_DATA
and the compressed length. -/
def write_sdi_extern_ref (p : Page) (off sid fb cl : Nat) : Page :=
  mach_write_to_8
    (mach_write_to_4
      (mach_write_to_4
        (mach_write_to_4 (zeroRange p off kSdiExternRefSize)
          (off + kSdiExternSpaceId) sid)
        (off + kSdiExternPageNo) fb)
      (off + kSdiExternOffset) FIL_PAGE_DATA)
    (off + kSdiExternLen) cl

/-- Write one SDI record whose base is at heap_top (populate_sdi_root_page):
zero the record area, store the variable-length prefix, the extra-byte bits,
the fixed payload, and either the inline compressed bytes or the 20-byte
external reference. -/
def write_sdi_record (page : Page) (heap_top : Nat) (use_external : Bool)
    (len_bytes rec_size : Nat) (e : SdiEntryComp) (comp_len : Nat)
    (space_id first_blob_page idx : Nat) : Page :=
  let rec0 := heap_top + len_bytes + kSdiRecHeaderSize
  let p1 := write_sdi_front (zeroRange page heap_top rec_size) heap_top use_external
    len_bytes comp_len
  let p2 := write_sdi_rec_extras p1 rec0 idx
  let p3 := write_sdi_rec_fixed p2 rec0 e comp_len
  if use_external then
    write_sdi_extern_ref p3 (rec0 + kSdiRecOffVar) space_id first_blob_page comp_len
  else
    writeBytesList p3 (rec0 + kSdiRecOffVar) e.comp

theorem write_sdi_front_outside (p : Page) (heap_top : Nat) (use_external : Bool)
    (len_bytes cl i : Nat) (h : i ≠ heap_top ∧ i ≠ heap_top + 1) :
    write_sdi_front p heap_top use_external len_bytes cl i = p i := by
  unfold write_sdi_front
  split
  · rw [writeByte_ne _ _ _ _ h.2, writeByte_ne _ _ _ _ h.1]
  · split
    · rw [writeByte_ne _ _ _ _ h.1]
    · rw [writeByte_ne _ _ _ _ h.2, writeByte_ne _ _ _ _ h.1]

theorem write_sdi_rec_extras_outside (p : Page) (rec0 idx i : Nat)
    (h5 : 5 ≤ rec0) (h : i < rec0 - 5 ∨ rec0 ≤ i) :
    write_sdi_rec_extras p rec0 idx i = p i := by
  unfold write_sdi_rec_extras rec_set_n_owned_new rec_set_status
    rec_set_heap_no_new rec_set_bit_field_1 rec_set_bit_field_2
  rw [writeByte_ne _ _ _ _ (by omega), writeByte_ne _ _ _ _ (by omega),
    mach_write_to_2_outside _ _ _ _ (by omega)]

theorem write_sdi_rec_fixed_outside (p : Page) (rec0 : Nat) (e : SdiEntryComp)
    (cl i : Nat) (h : i < rec0 ∨ rec0 + kSdiRecOffVar ≤ i) :
    write_sdi_rec_fixed p rec0 e cl i = p i := by
  simp only [kSdiRecOffVar] at h
  unfold write_sdi_rec_fixed
  simp only [kSdiRecOffType, kSdiRecOffId, kSdiRecOffTrxId, kSdiRecOffRollPtr,
    kSdiRecOffUncompLen, kSdiRecOffCompLen]
  rw [mach_write_to_4_outside _ _ _ _ (by omega),
    mach_write_to_4_outside _ _ _ _ (by omega),
    mach_write_to_7_outside _ _ _ _ (by omega),
    mach_write_to_6_outside _ _ _ _ (by omega),
    mach_write_to_8_outside _ _ _ _ (by omega),
    mach_write_to_4_outside _ _ _ _ (by omega)]

theorem write_sdi_extern_ref_reads (p : Page) (off sid fb cl : Nat) :
    mach_read_from_4 (write_sdi_extern_ref p off sid fb cl)
      (off + kSdiExternSpaceId) = sid % 4294967296 ∧
    mach_read_from_4 (write_sdi_extern_ref p off sid fb cl)
      (off + kSdiExternPageNo) = fb % 4294967296 ∧
    mach_read_from_4 (write_sdi_extern_ref p off sid fb cl)
      (off + kSdiExternOffset) = FIL_PAGE_DATA ∧
    mach_read_from_8 (write_sdi_extern_ref p off sid fb cl)
      (off + kSdiExternLen) = cl % 18446744073709551616 := by
  unfold write_sdi_extern_ref
  simp only [kSdiExternSpaceId, kSdiExternPageNo, kSdiExternOffset, kSdiExternLen,
    Nat.add_zero]
  refine ⟨?_, ?_, ?_, ?_⟩
  · rw [mach_read_from_4_congr _
      (mach_write_to_4 (zeroRange p off kSdiExternRefSize) off sid) off
      (fun j hj => by
        rw [mach_write_to_8_outside _ _ _ _ (by omega),
          mach_write_to_4_outside _ _ _ _ (by omega),
          mach_write_to_4_outside _ _ _ _ (by omega)])]
    exact mach_read_from_4_write_same _ _ _
  · rw [mach_read_from_4_congr _
      (mach_write_to_4 (mach_write_to_4 (zeroRange p off kSdiExternRefSize) off sid)
        (off + 4) fb) (off + 4)
      (fun j hj => by
        rw [mach_write_to_8_outside _ _ _ _ (by omega),
          mach_write_to_4_outside _ _ _ _ (by omega)])]
    exact mach_read_from_4_write_same _ _ _
  · rw [mach_read_from_4_congr _
      (mach_write_to_4 (mach_write_to_4 (mach_write_to_4
        (zeroRange p off kSdiExternRefSize) off sid) (off + 4) fb) (off + 8)
        FIL_PAGE_DATA) (off + 8)
      (fun j hj => by rw [mach_write_to_8_outside _ _ _ _ (by omega)])]
    rw [mach_read_from_4_write_same]
    simp [FIL_PAGE_DATA]
  · exact mach_read_from_8_write_same _ _ _

theorem write_sdi_extern_ref_outside (p : Page) (off sid fb cl i : Nat)
    (h : i < off ∨ off + kSdiExternRefSize ≤ i) :
    write_sdi_extern_ref p off sid fb cl i = p i := by
  simp only [kSdiExternRefSize] at h
  unfold write_sdi_extern_ref
  simp only [kSdiExternSpaceId, kSdiExternPageNo, kSdiExternOffset, kSdiExternLen,
    Nat.add_zero]
  rw [mach_write_to_8_outside _ _ _ _ (by omega),
    mach_write_to_4_outside _ _ _ _ (by omega),
    mach_write_to_4_outside _ _ _ _ (by omega),
    mach_write_to_4_outside _ _ _ _ (by omega),
    zeroRange_outside _ _ _ _ (by simp only [kSdiExternRefSize]; omega)]

theorem write_sdi_record_extern_bytes (page : Page) (heap_top rs : Nat)
    (e : SdiEntryComp) (cl sid fb idx : Nat) :
    write_sdi_record page heap_top true 2 rs e cl sid fb idx heap_top = 0 ∧
    write_sdi_record page heap_top true 2 rs e cl sid fb idx (heap_top + 1) = 0xC0 ∧
    mach_read_from_4 (write_sdi_record page heap_top true 2 rs e cl sid fb idx)
      (heap_top + 2 + kSdiRecHeaderSize + kSdiRecOffVar + kSdiExternSpaceId) =
      sid % 4294967296 ∧
    mach_read_from_4 (write_sdi_record page heap_top true 2 rs e cl sid fb idx)
      (heap_top + 2 + kSdiRecHeaderSize + kSdiRecOffVar + kSdiExternPageNo) =
      fb % 4294967296 ∧
    mach_read_from_4 (write_sdi_record page heap_top true 2 rs e cl sid fb idx)
      (heap_top + 2 + kSdiRecHeaderSize + kSdiRecOffVar + kSdiExternOffset) =
      FIL_PAGE_DATA ∧
    mach_read_from_8 (write_sdi_record page heap_top true 2 rs e cl sid fb idx)
      (heap_top + 2 + kSdiRecHeaderSize + kSdiRecOffVar + kSdiExternLen) =
      cl % 18446744073709551616 := by
  have hk5 : kSdiRecHeaderSize = 5 := rfl
  have hk33 : kSdiRecOffVar = 33 := rfl
  refine ⟨?_, ?_, ?_, ?_, ?_, ?_⟩
  · show write_sdi_extern_ref (write_sdi_rec_fixed (write_sdi_rec_extras
      (write_sdi_front (zeroRange page heap_top rs) heap_top true 2 cl)
      (heap_top + 2 + kSdiRecHeaderSize) idx) (heap_top + 2 + kSdiRecHeaderSize) e cl)
      (heap_top + 2 + kSdiRecHeaderSize + kSdiRecOffVar) sid fb cl heap_top = 0
    rw [write_sdi_extern_ref_outside _ _ _ _ _ _ (by omega),
      write_sdi_rec_fixed_outside _ _ _ _ _ (by left; omega),
      write_sdi_rec_extras_outside _ _ _ _ (by omega) (by left; omega)]
    unfold write_sdi_front
    rw [if_pos rfl, writeByte_ne _ _ _ _ (by omega)]
    simp [writeByte]
  · show write_sdi_extern_ref (write_sdi_rec_fixed (write_sdi_rec_extras
      (write_sdi_front (zeroRange page heap_top rs) heap_top true 2 cl)
      (heap_top + 2 + kSdiRecHeaderSize) idx) (heap_top + 2 + kSdiRecHeaderSize) e cl)
      (heap_top + 2 + kSdiRecHeaderSize + kSdiRecOffVar) sid fb cl (heap_top + 1) = 0xC0
    rw [write_sdi_extern_ref_outside _ _ _ _ _ _ (by omega),
      write_sdi_rec_fixed_outside _ _ _ _ _ (by left; omega),
      write_sdi_rec_extras_outside _ _ _ _ (by omega) (by left; omega)]
    unfold write_sdi_front
    rw [if_pos rfl]
    simp [writeByte]
  · exact (write_sdi_extern_ref_reads _ _ _ _ _).1
  · exact (write_sdi_extern_ref_reads _ _ _ _ _).2.1
  · exact (write_sdi_extern_ref_reads _ _ _ _ _).2.2.1
  · exact (write_sdi_extern_ref_reads _ _ _ _ _).2.2.2

theorem write_sdi_record_inline1_front (page : Page) (heap_top rs : Nat)
    (e : SdiEntryComp) (cl sid fb idx : Nat) :
    write_sdi_record page heap_top false 1 rs e cl sid fb idx heap_top = cl % 256 := by
  have hk5 : kSdiRecHeaderSize = 5 := rfl
  have hk33 : kSdiRecOffVar = 33 := rfl
  show writeBytesList (write_sdi_rec_fixed (write_sdi_rec_extras
    (write_sdi_front (zeroRange page heap_top rs) heap_top false 1 cl)
    (heap_top + 1 + kSdiRecHeaderSize) idx) (heap_top + 1 + kSdiRecHeaderSize) e cl)
    (heap_top + 1 + kSdiRecHeaderSize + kSdiRecOffVar) e.comp heap_top = cl % 256
  rw [writeBytesList_outside _ _ _ _ (by left; omega),
    write_sdi_rec_fixed_outside _ _ _ _ _ (by left; omega),
    write_sdi_rec_extras_outside _ _ _ _ (by omega) (by left; omega)]
  unfold write_sdi_front
  rw [if_neg Bool.false_ne_true, if_pos rfl]
  simp [writeByte]

theorem write_sdi_record_inline2_front (page : Page) (heap_top rs : Nat)
    (e : SdiEntryComp) (cl sid fb idx : Nat) :
    write_sdi_record page heap_top false 2 rs e cl sid fb idx heap_top = cl % 256 ∧
    write_sdi_record page heap_top false 2 rs e cl sid fb idx (heap_top + 1) =
      ((cl >>> 8) ||| 0x80) % 256 := by
  have hk5 : kSdiRecHeaderSize = 5 := rfl
  have hk33 : kSdiRecOffVar = 33 := rfl
  constructor
  · show writeBytesList (write_sdi_rec_fixed (write_sdi_rec_extras
      (write_sdi_front (zeroRange page heap_top rs) heap_top false 2 cl)
      (heap_top + 2 + kSdiRecHeaderSize) idx) (heap_top + 2 + kSdiRecHeaderSize) e cl)
      (heap_top + 2 + kSdiRecHeaderSize + kSdiRecOffVar) e.comp heap_top = cl % 256
    rw [writeBytesList_outside _ _ _ _ (by left; omega),
      write_sdi_rec_fixed_outside _ _ _ _ _ (by left; omega),
      write_sdi_rec_extras_outside _ _ _ _ (by omega) (by left; omega)]
    unfold write_sdi_front
    rw [if_neg Bool.false_ne_true, if_neg (by omega), writeByte_ne _ _ _ _ (by omega)]
    simp [writeByte]
  · show writeBytesList (write_sdi_rec_fixed (write_sdi_rec_extras
      (write_sdi_front (zeroRange page heap_top rs) heap_top false 2 cl)
      (heap_top + 2 + kSdiRecHeaderSize) idx) (heap_top + 2 + kSdiRecHeaderSize) e cl)
      (heap_top + 2 + kSdiRecHeaderSize + kSdiRecOffVar) e.comp (heap_top + 1) =
      ((cl >>> 8) ||| 0x80) % 256
    rw [writeBytesList_outside _ _ _ _ (by left; omega),
      write_sdi_rec_fixed_outside _ _ _ _ _ (by left; omega),
      write_sdi_rec_extras_outside _ _ _ _ (by omega) (by left; omega)]
    unfold write_sdi_front
    rw [if_neg Bool.false_ne_true, if_neg (by omega)]
    simp [writeByte]

theorem write_sdi_record_inline_payload (page : Page) (heap_top lb rs : Nat)
    (e : SdiEntryComp) (cl sid fb idx j : Nat) (hj : j < e.comp.length) :
    write_sdi_record page heap_top false lb rs e cl sid fb idx
      (heap_top + lb + kSdiRecHeaderSize + kSdiRecOffVar + j) = e.comp.getD j 0 % 256 := by
  show writeBytesList (write_sdi_rec_fixed (write_sdi_rec_extras
    (write_sdi_front (zeroRange page heap_top rs) heap_top false lb cl)
    (heap_top + lb + kSdiRecHeaderSize) idx) (heap_top + lb + kSdiRecHeaderSize) e cl)
    (heap_top + lb + kSdiRecHeaderSize + kSdiRecOffVar) e.comp
    (heap_top + lb + kSdiRecHeaderSize + kSdiRecOffVar + j) = e.comp.getD j 0 % 256
  exact writeBytesList_inside _ _ _ _ hj

/-- sdi_blob_payload_size (decompress.cc): payload bytes available on one
SDI-BLOB page after the 38-byte file header, the 8-byte (part_len,
next_page) header and the 8-byte trailer. -/
def sdi_blob_payload_size (page_size : Nat) : Nat :=
  if page_size ≤ FIL_PAGE_DATA + kSdiLobHdrSize + FIL_PAGE_END_LSN_OLD_CHKSUM then 0
  else page_size - FIL_PAGE_DATA - kSdiLobHdrSize - FIL_PAGE_END_LSN_OLD_CHKSUM

/-- One synthesized SDI-BLOB page of emit_sdi_blob_chain (decompress.cc):
a zeroed page with page number, FIL_NULL prev/next pointers, the SDI_BLOB
page type, the space id, the (part_len, next_page) header at FIL_PAGE_DATA,
the payload after it, and the LSN/checksum stamp. -/
def mk_sdi_blob_page (space_id page_size page_no part_len next_page : Nat)
    (payload : List Nat) : Page :=
  let p0 : Page := fun _ => 0
  let p1 := mach_write_to_4 p0 FIL_PAGE_OFFSET page_no
  let p2 := mach_write_to_4 p1 FIL_PAGE_PREV FIL_NULL
  let p3 := mach_write_to_4 p2 FIL_PAGE_NEXT FIL_NULL
  let p4 := mach_write_to_2 p3 FIL_PAGE_TYPE FIL_PAGE_SDI_BLOB
  let p5 := mach_write_to_4 p4 FIL_PAGE_ARCH_LOG_NO_OR_SPACE_ID space_id
  let p6 := mach_write_to_4 p5 (FIL_PAGE_DATA + kSdiLobHdrPartLen) part_len
  let p7 := mach_write_to_4 p6 (FIL_PAGE_DATA + kSdiLobHdrNextPageNo) next_page
  let p8 := writeBytesList p7 (FIL_PAGE_DATA + kSdiLobHdrSize) payload
  stamp_page_lsn_and_crc32 p8 page_size 0

/-- A chain page emitted by emit_sdi_blob_chain, as the values written into
its header and body. -/
structure SdiBlobPageOut where
  page_no : Nat
  part_len : Nat
  next_page : Nat
  payload : List Nat
deriving DecidableEq

instance : Inhabited SdiBlobPageOut := ⟨⟨0, 0, 0, []⟩⟩

/-- The loop of emit_sdi_blob_chain (decompress.cc): while bytes remain, take
the next pool page (failing when the pool is exhausted), give it
min(payload_size, remaining) payload bytes, and point it at the following
pool page when more bytes remain and the pool still has one, else FIL_NULL.
The payload_size = 0 guard mirrors the caller's rejection of such page
sizes and keeps the recursion well-founded. -/
def emit_sdi_blob_chain_go (payload_size : Nat) (pool : List Nat) :
    Nat → List Nat → Option (List SdiBlobPageOut)
  | _, [] => some []
  | nextIdx, b :: rem =>
    if payload_size = 0 then none
    else if pool.length ≤ nextIdx then none
    else
      let remaining := b :: rem
      let part := remaining.take payload_size
      let next_page :=
        if payload_size < remaining.length ∧ nextIdx + 1 < pool.length then
          pool.getD (nextIdx + 1) 0
        else FIL_NULL
      match emit_sdi_blob_chain_go payload_size pool (nextIdx + 1)
          (remaining.drop payload_size) with
      | none => none
      | some rest =>
        some ({ page_no := pool.getD nextIdx 0, part_len := part.length,
                next_page := next_page, payload := part } :: rest)
termination_by _ remaining => remaining.length
decreasing_by
  simp only [List.length_drop, List.length_cons]
  omega

/-- emit_sdi_blob_chain (decompress.cc): rejects a degenerate page size and
an empty payload, then runs the loop. -/
def emit_sdi_blob_chain (page_size : Nat) (pool : List Nat) (nextIdx : Nat)
    (comp : List Nat) : Option (List SdiBlobPageOut) :=
  if sdi_blob_payload_size page_size = 0 then none
  else if comp = [] then none
  else emit_sdi_blob_chain_go (sdi_blob_payload_size page_size) pool nextIdx comp

theorem stamp_page_lsn_and_crc32_outside (p : Page) (ps lsn i : Nat)
    (h4 : 4 ≤ i) (hmid : i < 16 ∨ 24 ≤ i) (htr : i < ps - 8) :
    stamp_page_lsn_and_crc32 p ps lsn i = p i := by
  simp only [stamp_page_lsn_and_crc32, FIL_PAGE_LSN, FIL_PAGE_SPACE_OR_CHKSUM,
    FIL_PAGE_END_LSN_OLD_CHKSUM]
  rw [mach_write_to_4_outside _ _ _ _ (by omega),
    mach_write_to_4_outside _ _ _ _ (by omega),
    mach_write_to_8_outside _ _ _ _ (by omega),
    mach_write_to_8_outside _ _ _ _ (by omega)]

theorem mk_sdi_blob_page_fields (sid ps pno plen np : Nat) (payload : List Nat)
    (hps : 54 ≤ ps) (hpl : payload.length ≤ ps - 54) :
    mach_read_from_2 (mk_sdi_blob_page sid ps pno plen np payload) FIL_PAGE_TYPE =
      FIL_PAGE_SDI_BLOB ∧
    mach_read_from_4 (mk_sdi_blob_page sid ps pno plen np payload)
      (FIL_PAGE_DATA + kSdiLobHdrPartLen) = plen % 4294967296 ∧
    mach_read_from_4 (mk_sdi_blob_page sid ps pno plen np payload)
      (FIL_PAGE_DATA + kSdiLobHdrNextPageNo) = np % 4294967296 ∧
    (∀ j, j < payload.length →
      mk_sdi_blob_page sid ps pno plen np payload (FIL_PAGE_DATA + kSdiLobHdrSize + j) =
        payload.getD j 0 % 256) ∧
    mach_read_from_4 (mk_sdi_blob_page sid ps pno plen np payload) FIL_PAGE_OFFSET =
      pno % 4294967296 := by
  have hk : FIL_PAGE_DATA = 38 := rfl
  have hk2 : kSdiLobHdrPartLen = 0 := rfl
  have hk3 : kSdiLobHdrNextPageNo = 4 := rfl
  have hk4 : kSdiLobHdrSize = 8 := rfl
  have hk5 : FIL_PAGE_TYPE = 24 := rfl
  have hk6 : FIL_PAGE_OFFSET = 4 := rfl
  have hk7 : FIL_PAGE_PREV = 8 := rfl
  have hk8 : FIL_PAGE_NEXT = 12 := rfl
  have hk9 : FIL_PAGE_ARCH_LOG_NO_OR_SPACE_ID = 34 := rfl
  refine ⟨?_, ?_, ?_, ?_, ?_⟩
  · show mach_read_from_2 (stamp_page_lsn_and_crc32 _ ps 0) FIL_PAGE_TYPE = _
    rw [mach_read_from_2_congr _ _ _ (fun j hj =>
      stamp_page_lsn_and_crc32_outside _ _ _ _ (by omega) (by omega) (by omega))]
    rw [mach_read_from_2_congr _
      (mach_write_to_2 (mach_write_to_4 (mach_write_to_4 (mach_write_to_4
        (fun _ => 0) FIL_PAGE_OFFSET pno) FIL_PAGE_PREV FIL_NULL) FIL_PAGE_NEXT
        FIL_NULL) FIL_PAGE_TYPE FIL_PAGE_SDI_BLOB) FIL_PAGE_TYPE
      (fun j hj => by
        rw [writeBytesList_outside _ _ _ _ (by omega),
          mach_write_to_4_outside _ _ _ _ (by omega),
          mach_write_to_4_outside _ _ _ _ (by omega),
          mach_write_to_4_outside _ _ _ _ (by omega)])]
    rw [mach_read_from_2_write_same]
    simp [FIL_PAGE_SDI_BLOB]
  · show mach_read_from_4 (stamp_page_lsn_and_crc32 _ ps 0) _ = _
    rw [mach_read_from_4_congr _ _ _ (fun j hj =>
      stamp_page_lsn_and_crc32_outside _ _ _ _ (by omega) (by omega) (by omega))]
    rw [mach_read_from_4_congr _
      (mach_write_to_4 (mach_write_to_4 (mach_write_to_2 (mach_write_to_4
        (mach_write_to_4 (mach_write_to_4 (fun _ => 0) FIL_PAGE_OFFSET pno)
        FIL_PAGE_PREV FIL_NULL) FIL_PAGE_NEXT FIL_NULL) FIL_PAGE_TYPE
        FIL_PAGE_SDI_BLOB) FIL_PAGE_ARCH_LOG_NO_OR_SPACE_ID sid)
        (FIL_PAGE_DATA + kSdiLobHdrPartLen) plen) (FIL_PAGE_DATA + kSdiLobHdrPartLen)
      (fun j hj => by
        rw [writeBytesList_outside _ _ _ _ (by omega),
          mach_write_to_4_outside _ _ _ _ (by omega)])]
    rw [mach_read_from_4_write_same]
  · show mach_read_from_4 (stamp_page_lsn_and_crc32 _ ps 0) _ = _
    rw [mach_read_from_4_congr _ _ _ (fun j hj =>
      stamp_page_lsn_and_crc32_outside _ _ _ _ (by omega) (by omega) (by omega))]
    rw [mach_read_from_4_congr _
      (mach_write_to_4 (mach_write_to_4 (mach_write_to_4 (mach_write_to_2
        (mach_write_to_4 (mach_write_to_4 (mach_write_to_4 (fun _ => 0)
        FIL_PAGE_OFFSET pno) FIL_PAGE_PREV FIL_NULL) FIL_PAGE_NEXT FIL_NULL)
        FIL_PAGE_TYPE FIL_PAGE_SDI_BLOB) FIL_PAGE_ARCH_LOG_NO_OR_SPACE_ID sid)
        (FIL_PAGE_DATA + kSdiLobHdrPartLen) plen)
        (FIL_PAGE_DATA + kSdiLobHdrNextPageNo) np)
      (FIL_PAGE_DATA + kSdiLobHdrNextPageNo)
      (fun j hj => by
        rw [writeBytesList_outside _ _ _ _ (by omega)])]
    rw [mach_read_from_4_write_same]
  · intro j hj
    show stamp_page_lsn_and_crc32 _ ps 0 _ = _
    rw [stamp_page_lsn_and_crc32_outside _ _ _ _ (by omega) (by omega) (by omega)]
    exact writeBytesList_inside _ _ _ _ hj
  · show mach_read_from_4 (stamp_page_lsn_and_crc32 _ ps 0) _ = _
    rw [mach_read_from_4_congr _ _ _ (fun j hj =>
      stamp_page_lsn_and_crc32_outside _ _ _ _ (by omega) (by omega) (by omega))]
    rw [mach_read_from_4_congr _
      (mach_write_to_4 (fun _ => 0) FIL_PAGE_OFFSET pno) FIL_PAGE_OFFSET
      (fun j hj => by
        rw [writeBytesList_outside _ _ _ _ (by omega),
          mach_write_to_4_outside _ _ _ _ (by omega),
          mach_write_to_4_outside _ _ _ _ (by omega),
          mach_write_to_4_outside _ _ _ _ (by omega),
          mach_write_to_2_outside _ _ _ _ (by omega),
          mach_write_to_4_outside _ _ _ _ (by omega),
          mach_write_to_4_outside _ _ _ _ (by omega)])]
    rw [mach_read_from_4_write_same]

theorem emit_sdi_blob_chain_go_nil (ps : Nat) (pool : List Nat) (n : Nat) :
    emit_sdi_blob_chain_go ps pool n [] = some [] := by
  rw [emit_sdi_blob_chain_go]

theorem emit_sdi_blob_chain_go_cons_facts (ps : Nat) (pool : List Nat) (n x : Nat)
    (xs : List Nat) (c : List SdiBlobPageOut)
    (h : emit_sdi_blob_chain_go ps pool n (x :: xs) = some c) :
    ps ≠ 0 ∧ n < pool.length := by
  rw [emit_sdi_blob_chain_go] at h
  split at h
  · simp at h
  · split at h
    · simp at h
    · rename_i h1 h2
      exact ⟨h1, by omega⟩

/-- Structure of a successful emit_sdi_blob_chain loop run: the payloads
concatenate back to the input, page numbers come from the pool in order,
every part is nonempty, at most payload_size long and equal to its recorded
part_len, every non-final page points at the next pool page, and the final
page's next pointer is FIL_NULL. -/
theorem emit_sdi_blob_chain_go_spec (ps : Nat) (pool : List Nat) :
    ∀ n rem nextIdx chain, rem.length ≤ n →
      emit_sdi_blob_chain_go ps pool nextIdx rem = some chain →
      ((chain.map SdiBlobPageOut.payload).flatten = rem ∧
        (∀ j, j < chain.length →
          (chain.getD j default).page_no = pool.getD (nextIdx + j) 0) ∧
        (∀ c ∈ chain, c.part_len = c.payload.length ∧ 0 < c.payload.length ∧
          c.payload.length ≤ ps) ∧
        (∀ j, j + 1 < chain.length →
          (chain.getD j default).next_page = pool.getD (nextIdx + j + 1) 0) ∧
        (∀ hne : chain ≠ [], (chain.getLast hne).next_page = FIL_NULL)) := by
  intro n
  induction n with
  | zero =>
    intro rem nextIdx chain hlen hgo
    have hnil : rem = [] := List.eq_nil_of_length_eq_zero (by omega)
    subst hnil
    rw [emit_sdi_blob_chain_go_nil, Option.some.injEq] at hgo
    subst hgo
    refine ⟨rfl, ?_, ?_, ?_, ?_⟩ <;> simp
  | succ m ih =>
    intro rem nextIdx chain hlen hgo
    match rem with
    | [] =>
      rw [emit_sdi_blob_chain_go_nil, Option.some.injEq] at hgo
      subst hgo
      refine ⟨rfl, ?_, ?_, ?_, ?_⟩ <;> simp
    | x :: xs =>
      have hfacts := emit_sdi_blob_chain_go_cons_facts ps pool nextIdx x xs chain hgo
      rw [emit_sdi_blob_chain_go, if_neg hfacts.1, if_neg (by omega)] at hgo
      simp only [] at hgo
      split at hgo
      · simp at hgo
      · rename_i rest hrest
        rw [Option.some.injEq] at hgo
        subst hgo
        have hlen2 : ((x :: xs).drop ps).length ≤ m := by
          simp only [List.length_drop, List.length_cons] at *
          omega
        obtain ⟨hflat, hpg, hmem, hlink, hlast⟩ :=
          ih ((x :: xs).drop ps) (nextIdx + 1) rest hlen2 hrest
        have htk : ((x :: xs).take ps).length = min ps (xs.length + 1) := by
          simp [List.length_take]
        refine ⟨?_, ?_, ?_, ?_, ?_⟩
        · simp only [List.map_cons, List.flatten_cons, hflat, List.take_append_drop]
        · intro j hj
          cases j with
          | zero =>
            simp only [List.getD_cons_zero, Nat.add_zero]
          | succ k =>
            simp only [List.getD_cons_succ]
            rw [show nextIdx + (k + 1) = nextIdx + 1 + k by omega]
            apply hpg
            simp only [List.length_cons] at hj
            omega
        · intro c hc
          rcases List.mem_cons.mp hc with rfl | hcr
          · refine ⟨rfl, ?_, ?_⟩
            · rw [htk]
              have := hfacts.1
              omega
            · rw [htk]
              omega
          · exact hmem c hcr
        · intro j hj
          cases j with
          | zero =>
            simp only [List.getD_cons_zero]
            have hrne : rest ≠ [] := by
              intro hr
              rw [hr] at hj
              simp at hj
            have hdropne : (x :: xs).drop ps ≠ [] := by
              intro hd
              rw [hd] at hflat
              obtain ⟨r0, rs, hr0⟩ := List.exists_cons_of_ne_nil hrne
              rw [hr0] at hflat hmem
              have hp0 := (hmem r0 (List.mem_cons_self r0 rs)).2.1
              simp only [List.map_cons, List.flatten_cons] at hflat
              have : r0.payload.length = 0 := by
                have hlen0 := congrArg List.length hflat
                simp only [List.length_append, List.length_nil] at hlen0
                omega
              omega
            have hps_lt : ps < (x :: xs).length := by
              by_contra hge
              exact hdropne (List.drop_eq_nil_iff.mpr (by omega))
            obtain ⟨d0, ds, hd⟩ := List.exists_cons_of_ne_nil hdropne
            rw [hd] at hrest
            have hfacts2 := emit_sdi_blob_chain_go_cons_facts ps pool (nextIdx + 1)
              d0 ds rest hrest
            rw [if_pos ⟨hps_lt, by omega⟩]
          | succ k =>
            simp only [List.getD_cons_succ]
            rw [show nextIdx + (k + 1) + 1 = nextIdx + 1 + k + 1 by omega]
            apply hlink
            simp only [List.length_cons] at hj
            omega
        · intro hne
          cases rest with
          | nil =>
            simp only [List.getLast_singleton]
            have hdrop : (x :: xs).drop ps = [] := by
              rw [← hflat]
              simp
            rw [if_neg (by
              rw [List.drop_eq_nil_iff] at hdrop
              omega)]
          | cons r rs =>
            rw [List.getLast_cons (by simp)]
            exact hlast (by simp)

/-- State of the per-entry loop of populate_sdi_root_page. -/
structure SdiPopState where
  page : Page
  heap_top : Nat
  blob_next : Nat
  blob_pages : List SdiBlobPageOut
  rec_offs : List Nat

/-- The per-entry loop of populate_sdi_root_page (decompress.cc): for each
entry decide inline versus external, spill the compressed bytes through
emit_sdi_blob_chain when external, write the record at the heap top, and
advance the heap top by the record size. -/
def populate_sdi_entries (page_size dir_start space_id : Nat) (pool : List Nat) :
    List SdiEntryComp → Nat → SdiPopState → Option SdiPopState
  | [], _, st => some st
  | e :: rest, idx, st =>
    match sdi_rec_place st.heap_top dir_start e.comp.length with
    | none => none
    | some (use_external, len_bytes, rec_size) =>
      if use_external then
        match emit_sdi_blob_chain page_size pool st.blob_next e.comp with
        | none => none
        | some [] => none
        | some (c0 :: chain) =>
          populate_sdi_entries page_size dir_start space_id pool rest (idx + 1)
            { page := write_sdi_record st.page st.heap_top true len_bytes rec_size e
                e.comp.length space_id c0.page_no idx
              heap_top := st.heap_top + rec_size
              blob_next := st.blob_next + (c0 :: chain).length
              blob_pages := st.blob_pages ++ c0 :: chain
              rec_offs := st.rec_offs ++ [st.heap_top + len_bytes + kSdiRecHeaderSize] }
      else
        populate_sdi_entries page_size dir_start space_id pool rest (idx + 1)
          { page := write_sdi_record st.page st.heap_top false len_bytes rec_size e
              e.comp.length space_id FIL_NULL idx
            heap_top := st.heap_top + rec_size
            blob_next := st.blob_next
            blob_pages := st.blob_pages
            rec_offs := st.rec_offs ++ [st.heap_top + len_bytes + kSdiRecHeaderSize] }

theorem sdi_rec_place_cases (heap_top dir_start cl : Nat) (ext : Bool)
    (lb rs : Nat) (h : sdi_rec_place heap_top dir_start cl = some (ext, lb, rs)) :
    (ext = false ∧ cl ≤ 0x3fff ∧
      heap_top + (kSdiRecHeaderSize + (if cl ≤ 127 then 1 else 2) +
        kSdiRecOffVar + cl) ≤ dir_start ∧
      lb = (if cl ≤ 127 then 1 else 2) ∧
      rs = kSdiRecHeaderSize + lb + kSdiRecOffVar + cl) ∨
    (ext = true ∧
      ¬(cl ≤ 0x3fff ∧
        heap_top + (kSdiRecHeaderSize + (if cl ≤ 127 then 1 else 2) +
          kSdiRecOffVar + cl) ≤ dir_start) ∧
      lb = 2 ∧ rs = kSdiRecHeaderSize + 2 + kSdiRecOffVar + kSdiExternRefSize) := by
  unfold sdi_rec_place at h
  by_cases hbig : 0x3fff < cl
  · rw [if_pos hbig] at h
    by_cases hcap : dir_start <
        heap_top + (kSdiRecHeaderSize + 2 + kSdiRecOffVar + kSdiExternRefSize)
    · rw [if_pos hcap] at h
      simp at h
    · rw [if_neg hcap] at h
      simp only [Option.some.injEq, Prod.mk.injEq] at h
      right
      exact ⟨h.1.symm, fun hP => absurd hP.1 (by omega), h.2.1.symm, h.2.2.symm⟩
  · rw [if_neg hbig] at h
    by_cases hfit : dir_start < heap_top + (kSdiRecHeaderSize +
        (if cl ≤ 127 then 1 else 2) + kSdiRecOffVar + cl)
    · rw [if_pos hfit] at h
      by_cases hcap : dir_start <
          heap_top + (kSdiRecHeaderSize + 2 + kSdiRecOffVar + kSdiExternRefSize)
      · rw [if_pos hcap] at h
        simp at h
      · rw [if_neg hcap] at h
        simp only [Option.some.injEq, Prod.mk.injEq] at h
        right
        exact ⟨h.1.symm, fun hP => absurd hP.2 (by omega), h.2.1.symm, h.2.2.symm⟩
    · rw [if_neg hfit] at h
      simp only [Option.some.injEq, Prod.mk.injEq] at h
      left
      refine ⟨h.1.symm, by omega, by omega, h.2.1.symm, ?_⟩
      have hl := h.2.1
      have hr := h.2.2
      omega

theorem emit_sdi_blob_chain_spec (ps : Nat) (pool : List Nat) (nextIdx : Nat)
    (comp : List Nat) (chain : List SdiBlobPageOut)
    (h : emit_sdi_blob_chain ps pool nextIdx comp = some chain) :
    55 ≤ ps ∧
    (chain.map SdiBlobPageOut.payload).flatten = comp ∧
    (∀ j, j < chain.length →
      (chain.getD j default).page_no = pool.getD (nextIdx + j) 0) ∧
    (∀ c ∈ chain, c.part_len = c.payload.length ∧ 0 < c.payload.length ∧
      c.payload.length ≤ sdi_blob_payload_size ps) ∧
    (∀ j, j + 1 < chain.length →
      (chain.getD j default).next_page = pool.getD (nextIdx + j + 1) 0) ∧
    (∀ hne : chain ≠ [], (chain.getLast hne).next_page = FIL_NULL) := by
  unfold emit_sdi_blob_chain at h
  split at h
  · simp at h
  · split at h
    · simp at h
    · rename_i hpz hcomp
      have hval : FIL_PAGE_DATA + kSdiLobHdrSize + FIL_PAGE_END_LSN_OLD_CHKSUM = 54 :=
        rfl
      have h55 : 55 ≤ ps := by
        by_contra hlt
        exact hpz (by unfold sdi_blob_payload_size; rw [if_pos (by omega)])
      exact ⟨h55, emit_sdi_blob_chain_go_spec (sdi_blob_payload_size ps) pool
        comp.length comp nextIdx chain le_rfl h⟩

theorem sdi_blob_payload_size_eq (ps : Nat) (h : 55 ≤ ps) :
    sdi_blob_payload_size ps = ps - 54 := by
  have hval : FIL_PAGE_DATA + kSdiLobHdrSize + FIL_PAGE_END_LSN_OLD_CHKSUM = 54 := rfl
  unfold sdi_blob_payload_size
  rw [if_neg (by omega)]
  omega


/-- A concrete SDI entry used to instantiate the C8 layout theorem: 20
compressed bytes, stored inline with a one-byte length prefix. -/
def c8E : SdiEntryComp := ⟨17853, 3, 200, List.replicate 20 7⟩

/-- C8. When repopulating the rebuilt SDI root page, an entry's
zlib-compressed JSON is stored inline exactly when comp_len ≤ 0x3FFF and the
inline record fits in the remaining heap-to-directory space, with a 1-byte
length prefix iff comp_len ≤ 127 and 2 bytes otherwise (the inline record
then carrying the compressed bytes after the record header); otherwise the
record goes external: its two prefix bytes are 0x00 and 0xC0 (the
externally-stored bit set on the two-byte marker), it stores the 20-byte
external reference (space_id, first_blob_page, FIL_PAGE_DATA, comp_len) at
the variable-data offset, and the compressed bytes are spilled across
SDI_BLOB pages drawn in order from the free pool, each synthesized page
carrying the (part_len, next_page) header right after the 38-byte file
header and its payload slice after that, chained through the pool and
terminated by FIL_NULL. -/
theorem C8_sdi_record_storage (page : Page)
    (ps heap_top dir_start sid fb idx nextIdx : Nat) (e : SdiEntryComp)
    (pool : List Nat) (chain : List SdiBlobPageOut) (ext : Bool) (lb rs : Nat)
    (hplace : sdi_rec_place heap_top dir_start e.comp.length = some (ext, lb, rs)) :
    (ext = false ↔ (e.comp.length ≤ 0x3fff ∧
      heap_top + (kSdiRecHeaderSize + (if e.comp.length ≤ 127 then 1 else 2) +
        kSdiRecOffVar + e.comp.length) ≤ dir_start)) ∧
    (ext = false →
      ((lb = 1 ↔ e.comp.length ≤ 127) ∧
        rs = kSdiRecHeaderSize + lb + kSdiRecOffVar + e.comp.length ∧
        (lb = 1 → write_sdi_record page heap_top false 1 rs e e.comp.length sid fb
          idx heap_top = e.comp.length % 256) ∧
        (lb = 2 →
          write_sdi_record page heap_top false 2 rs e e.comp.length sid fb idx
            heap_top = e.comp.length % 256 ∧
          write_sdi_record page heap_top false 2 rs e e.comp.length sid fb idx
            (heap_top + 1) = ((e.comp.length >>> 8) ||| 0x80) % 256) ∧
        (∀ j, j < e.comp.length →
          write_sdi_record page heap_top false lb rs e e.comp.length sid fb idx
            (heap_top + lb + kSdiRecHeaderSize + kSdiRecOffVar + j) =
            e.comp.getD j 0 % 256))) ∧
    (ext = true →
      (lb = 2 ∧ rs = kSdiRecHeaderSize + 2 + kSdiRecOffVar + kSdiExternRefSize ∧
        write_sdi_record page heap_top true 2 rs e e.comp.length sid fb idx
          heap_top = 0 ∧
        write_sdi_record page heap_top true 2 rs e e.comp.length sid fb idx
          (heap_top + 1) = 0xC0 ∧
        mach_read_from_4
          (write_sdi_record page heap_top true 2 rs e e.comp.length sid fb idx)
          (heap_top + 2 + kSdiRecHeaderSize + kSdiRecOffVar + kSdiExternSpaceId) =
          sid % 4294967296 ∧
        mach_read_from_4
          (write_sdi_record page heap_top true 2 rs e e.comp.length sid fb idx)
          (heap_top + 2 + kSdiRecHeaderSize + kSdiRecOffVar + kSdiExternPageNo) =
          fb % 4294967296 ∧
        mach_read_from_4
          (write_sdi_record page heap_top true 2 rs e e.comp.length sid fb idx)
          (heap_top + 2 + kSdiRecHeaderSize + kSdiRecOffVar + kSdiExternOffset) =
          FIL_PAGE_DATA ∧
        mach_read_from_8
          (write_sdi_record page heap_top true 2 rs e e.comp.length sid fb idx)
          (heap_top + 2 + kSdiRecHeaderSize + kSdiRecOffVar + kSdiExternLen) =
          e.comp.length % 18446744073709551616 ∧
        (emit_sdi_blob_chain ps pool nextIdx e.comp = some chain →
          ((chain.map SdiBlobPageOut.payload).flatten = e.comp ∧
            (∀ j, j < chain.length →
              (chain.getD j default).page_no = pool.getD (nextIdx + j) 0) ∧
            (∀ c ∈ chain, c.part_len = c.payload.length ∧ 0 < c.payload.length ∧
              c.payload.length ≤ sdi_blob_payload_size ps) ∧
            (∀ j, j + 1 < chain.length →
              (chain.getD j default).next_page = pool.getD (nextIdx + j + 1) 0) ∧
            (∀ hne : chain ≠ [], (chain.getLast hne).next_page = FIL_NULL) ∧
            (∀ c ∈ chain,
              mach_read_from_2 (mk_sdi_blob_page sid ps c.page_no c.part_len
                c.next_page c.payload) FIL_PAGE_TYPE = FIL_PAGE_SDI_BLOB ∧
              mach_read_from_4 (mk_sdi_blob_page sid ps c.page_no c.part_len
                c.next_page c.payload) (FIL_PAGE_DATA + kSdiLobHdrPartLen) =
                c.part_len % 4294967296 ∧
              mach_read_from_4 (mk_sdi_blob_page sid ps c.page_no c.part_len
                c.next_page c.payload) (FIL_PAGE_DATA + kSdiLobHdrNextPageNo) =
                c.next_page % 4294967296 ∧
              (∀ j, j < c.payload.length →
                mk_sdi_blob_page sid ps c.page_no c.part_len c.next_page c.payload
                  (FIL_PAGE_DATA + kSdiLobHdrSize + j) =
                  c.payload.getD j 0 % 256)))))) := by
  have hcases := sdi_rec_place_cases heap_top dir_start e.comp.length ext lb rs hplace
  refine ⟨?_, ?_, ?_⟩
  · rcases hcases with ⟨he, hle, hfit, -, -⟩ | ⟨he, hnot, -, -⟩
    · subst he
      exact iff_of_true rfl ⟨hle, hfit⟩
    · subst he
      exact iff_of_false (by simp) hnot
  · intro hf
    rcases hcases with ⟨-, -, -, hlb, hrs⟩ | ⟨he, -, -, -⟩
    · refine ⟨?_, hrs, ?_, ?_, ?_⟩
      · by_cases hc : e.comp.length ≤ 127
        · rw [hlb, if_pos hc]
          exact iff_of_true rfl hc
        · rw [hlb, if_neg hc]
          exact iff_of_false (by omega) hc
      · intro hl1
        exact write_sdi_record_inline1_front page heap_top rs e e.comp.length sid
          fb idx
      · intro hl2
        exact write_sdi_record_inline2_front page heap_top rs e e.comp.length sid
          fb idx
      · intro j hj
        exact write_sdi_record_inline_payload page heap_top lb rs e e.comp.length
          sid fb idx j hj
    · rw [hf] at he
      exact absurd he (by simp)
  · intro ht
    rcases hcases with ⟨he, -, -, -, -⟩ | ⟨-, -, hlb, hrs⟩
    · rw [ht] at he
      exact absurd he (by simp)
    · obtain ⟨b0, b1, r1, r2, r3, r4⟩ :=
        write_sdi_record_extern_bytes page heap_top rs e e.comp.length sid fb idx
      refine ⟨hlb, hrs, b0, b1, r1, r2, r3, r4, ?_⟩
      intro hemit
      obtain ⟨h55, hflat, hpg, hmem, hlink, hlast⟩ :=
        emit_sdi_blob_chain_spec ps pool nextIdx e.comp chain hemit
      refine ⟨hflat, hpg, hmem, hlink, hlast, ?_⟩
      intro c hc
      have hppl : c.payload.length ≤ ps - 54 := by
        have hb := (hmem c hc).2.2
        rw [sdi_blob_payload_size_eq ps h55] at hb
        exact hb
      obtain ⟨m1, m2, m3, m4, -⟩ :=
        mk_sdi_blob_page_fields sid ps c.page_no c.part_len c.next_page c.payload
          (by omega) hppl
      exact ⟨m1, m2, m3, m4⟩

/-- Concrete instantiation of the C8 layout theorem: a 20-byte compressed
entry at heap top 120 with directory start 16306 is placed inline with a
one-byte length prefix, and the record's first byte is that length. -/
theorem C8_sdi_record_storage_witness :
    sdi_rec_place 120 16306 c8E.comp.length = some (false, 1, 59) ∧
    write_sdi_record (fun _ => 0) 120 false 1 59 c8E c8E.comp.length 1 5 0 120 =
      c8E.comp.length % 256 := by
  refine ⟨by decide, ?_⟩
  exact (((C8_sdi_record_storage (fun _ => 0) 70 120 16306 1 5 0 0 c8E [5, 6, 7]
    [] false 1 59 (by decide)).2.1 rfl).2.2.1 rfl)

end PerconaParser
